import Mathlib

/-!
Verification development for the wordbomblike server (server.js + roomManager.js).

JavaScript strings are embedded as `List Char` (code-point sequences); JS `Map`s
are embedded as insertion-ordered association lists with `Map.set` / `Map.get` /
`Map.delete` counterparts `mset` / `mget` / `mdel`; `undefined` / `null` fields
are embedded as `Option` / empty-list / `false` / `0` defaults matching JS
truthiness at every use site.  Machine arithmetic (`>>> 0`) is embedded as
`% 2 ^ 32` on `Nat`.
-/

set_option maxRecDepth 10000

/-- JS `Map.get`: first binding of the key, if any. -/
def mget {K V : Type} [DecidableEq K] (m : List (K × V)) (k : K) : Option V :=
  (m.find? (fun p => p.1 = k)).map Prod.snd

/-- JS `Map.set`: replace the value at an existing key in place, else append. -/
def mset {K V : Type} [DecidableEq K] : List (K × V) → K → V → List (K × V)
  | [], k, v => [(k, v)]
  | (k₀, v₀) :: rest, k, v =>
      if k₀ = k then (k, v) :: rest else (k₀, v₀) :: mset rest k v

/-- JS `Map.delete`: drop every binding of the key (at most one arises in use). -/
def mdel {K V : Type} [DecidableEq K] (m : List (K × V)) (k : K) : List (K × V) :=
  m.filter (fun p => p.1 ≠ k)

theorem mget_mset {K V : Type} [DecidableEq K] (m : List (K × V)) (k k' : K) (v : V) :
    mget (mset m k v) k' = if k' = k then some v else mget m k' := by
  induction m with
  | nil =>
      by_cases h : k' = k
      · subst h; simp [mget, mset, List.find?]
      · have h' : ¬ k = k' := fun hh => h hh.symm
        simp [mget, mset, List.find?, h, h']
  | cons p rest ih =>
      obtain ⟨k₀, v₀⟩ := p
      by_cases h0 : k₀ = k
      · subst h0
        by_cases h : k' = k₀
        · subst h; simp [mget, mset, List.find?]
        · have h' : ¬ k₀ = k' := fun hh => h hh.symm
          simp [mget, mset, List.find?, h, h']
      · by_cases h : k' = k₀
        · subst h
          have hk : ¬ k' = k := fun hh => h0 (hh ▸ rfl)
          simp [mget, mset, List.find?, h0, hk]
        · have h' : ¬ k₀ = k' := fun hh => h hh.symm
          have step : mget (mset ((k₀, v₀) :: rest) k v) k' = mget (mset rest k v) k' := by
            simp [mget, mset, List.find?, h0, h']
          have step2 : mget ((k₀, v₀) :: rest) k' = mget rest k' := by
            simp [mget, List.find?, h']
          rw [step, ih, step2]

/-- Value read with a default, mirroring `map.get(k) || 0`. -/
def mgetD {K V : Type} [DecidableEq K] (m : List (K × V)) (k : K) (d : V) : V :=
  (mget m k).getD d

theorem mgetD_mset {K V : Type} [DecidableEq K] (m : List (K × V)) (k k' : K) (v d : V) :
    mgetD (mset m k v) k' d = if k' = k then v else mgetD m k' d := by
  unfold mgetD
  rw [mget_mset]
  by_cases h : k' = k <;> simp [h]

-- ---------------------------------------------------------------------------
-- JS string primitives on List Char
-- ---------------------------------------------------------------------------

/-- JS `String.prototype.trim`: strip leading and trailing whitespace. -/
def jsTrim (s : List Char) : List Char :=
  ((s.dropWhile Char.isWhitespace).reverse.dropWhile Char.isWhitespace).reverse

/-- JS `String.prototype.toUpperCase`, restricted to the simple case map. -/
def jsUpper (s : List Char) : List Char := s.map Char.toUpper

/-- JS `String.prototype.toLowerCase`, restricted to the simple case map. -/
def jsLower (s : List Char) : List Char := s.map Char.toLower

/-- JS `haystack.includes(needle)`: contiguous-substring test. -/
def jsIncludes (hay needle : List Char) : Bool := decide (needle <:+: hay)

/-- JS `s.startsWith(p)`. -/
def jsStartsWith (s p : List Char) : Bool := decide (p <+: s)

/-- Unicode letter class `\p{L}` of the source regexes, embedded as `Char.isAlpha`
(the claims under verification do not depend on the extent of the letter class). -/
def isLetterChar (c : Char) : Bool := c.isAlpha

/-- Source `isAllLetters`: JS regex `^[\p{L}]+$` — non-empty and all letters. -/
def isAllLetters (s : List Char) : Bool := !s.isEmpty && s.all isLetterChar

/-- Source `normalizeWord`: `String(raw).trim().toUpperCase()`. -/
def normalizeWord (raw : List Char) : List Char := jsUpper (jsTrim raw)

/-- Source `wordParts`: `word.split('-').filter(Boolean)`. -/
def wordParts (word : List Char) : List (List Char) :=
  (word.splitOn '-').filter (fun p => !p.isEmpty)

/-- Source `hashWord` (FNV-1a 32-bit); `>>> 0` is `% 2 ^ 32`.  The JS source
multiplies with plain doubles, whose rounding above `2 ^ 53` is not modelled;
no claim under verification depends on concrete hash values. -/
def hashWord (s : List Char) : Nat :=
  s.foldl (fun h c => ((h ^^^ c.toNat) * 0x01000193) % 4294967296) 0x811c9dc5

/-- Source `escapeHtml`: the five chained global character replacements. -/
def replaceAllChar (c : Char) (rep : List Char) (s : List Char) : List Char :=
  s.flatMap (fun x => if x = c then rep else [x])

/-- Source `escapeHtml` on the embedded strings. -/
def escapeHtml (s : List Char) : List Char :=
  replaceAllChar '\'' "&#x27;".toList
    (replaceAllChar '"' "&quot;".toList
      (replaceAllChar '>' "&gt;".toList
        (replaceAllChar '<' "&lt;".toList
          (replaceAllChar '&' "&amp;".toList s))))

-- ---------------------------------------------------------------------------
-- Dictionary index (server.js: buildStatsFromDictionary / prepare / queries)
-- ---------------------------------------------------------------------------

/-- Source `LENGTHS = [2, 3, 4]`. -/
def LENGTHS : List Nat := [2, 3, 4]

/-- Source `SAMPLE_WORDS_CAP` default. -/
def SAMPLE_WORDS_CAP : Nat := 30

/-- All length-`L` substrings of a hyphen part (`part.substring(i, i + L)` for
`0 ≤ i ≤ part.length - L`), empty when the part is shorter than `L`. -/
def substringsOfLen (L : Nat) (part : List Char) : List (List Char) :=
  if part.length < L then []
  else (List.range (part.length - L + 1)).map (fun i => (part.drop i).take L)

/-- De-duplication keeping first occurrences, matching JS `Set` insertion
order. -/
def firstDedup {α : Type} [DecidableEq α] (l : List α) : List α :=
  l.foldl (fun acc a => if a ∈ acc then acc else acc ++ [a]) []

/-- Per-word de-duplicated syllable set of one normalized word for one length
(source `seenSylsInWord[L]`, a JS `Set` filled across all hyphen parts). -/
def seenSyls (L : Nat) (word : List Char) : List (List Char) :=
  firstDedup (((wordParts word).flatMap (substringsOfLen L)).filter isAllLetters)

/-- In-memory index: per-length syllable count maps, per-`(L, syl)` sample
lists, and the membership hash set (source globals `syllableCounts`,
`wordsBySyll`, `dictionarySet`). -/
structure ServerIndex where
  syllableCounts : Nat → List (List Char × Nat)
  wordsBySyll : List ((Nat × List Char) × List (List Char))
  dictionarySet : Option (List Nat)
deriving Inhabited

/-- Index state before any build: empty maps per length, no sample lists, and
a `null` membership set. -/
def emptyIndex : ServerIndex :=
  { syllableCounts := fun _ => [], wordsBySyll := [], dictionarySet := none }

/-- Inner body of the per-word scan: bump the length-`L` count of one syllable
by 1 and append the word to the capped `(L, syl)` sample list (source lines
`map.set(syl, (map.get(syl) || 0) + 1)` and the `wordsBySyll` push). -/
def bumpSyl (L : Nat) (word : List Char) (acc : ServerIndex) (syl : List Char) : ServerIndex :=
  let m := acc.syllableCounts L
  let counts2 := fun L' =>
    if L' = L then mset m syl (mgetD m syl 0 + 1) else acc.syllableCounts L'
  let key := (L, syl)
  let samples := mgetD acc.wordsBySyll key []
  let wbs :=
    if samples.length < SAMPLE_WORDS_CAP then
      mset acc.wordsBySyll key (samples ++ [word])
    else acc.wordsBySyll
  { acc with syllableCounts := counts2, wordsBySyll := wbs }

/-- Per-length pass over the per-word syllable set (source
`for (const syl of seenSylsInWord[L])`). -/
def bumpLen (word : List Char) (acc : ServerIndex) (L : Nat) : ServerIndex :=
  (seenSyls L word).foldl (bumpSyl L word) acc

/-- One dictionary line of `buildStatsFromDictionary`'s `rl.on('line')`:
normalize, skip empty, hash into the membership set, then bump each per-word
syllable once per length and append the word to capped sample lists. -/
def processLine (st : ServerIndex) (line : List Char) : ServerIndex :=
  let word := normalizeWord line
  if word.isEmpty then st
  else
    let st1 := { st with
      dictionarySet := some ((st.dictionarySet.getD []) ++ [hashWord word]) }
    LENGTHS.foldl (bumpLen word) st1

/-- Source `buildStatsFromDictionary` over the lines of an existing readable
file: re-create the membership set, then stream every line through
`processLine`. -/
def buildStatsFromDictionary (st : ServerIndex) (lines : List (List Char)) : ServerIndex :=
  lines.foldl processLine { st with dictionarySet := some [] }

/-- Outcome of opening and streaming the dictionary file: absent, failing
mid-stream after a consumed prefix, or fully read. -/
inductive FileRead where
  | absent : FileRead
  | ioError (consumed : List (List Char)) : FileRead
  | ok (lines : List (List Char)) : FileRead

/-- Full server dictionary state: the index plus the `ready` flag. -/
structure DictState where
  index : ServerIndex
  ready : Bool
deriving Inhabited

/-- Reset index written by `prepare` before every build (fresh per-length
maps, emptied `wordsBySyll`, fresh hash set). -/
def resetIndex : ServerIndex :=
  { syllableCounts := fun _ => [], wordsBySyll := [], dictionarySet := some [] }

/-- Source `prepare`: set `ready = false`, RESET all three structures, then
build; on success set `ready = true`, on failure leave `ready = false`.  The
prior index `st` is discarded unconditionally — the reset happens before the
build is attempted, so a failed build does not restore it. -/
def prepare (st : DictState) (file : FileRead) : DictState :=
  match st, file with
  | _, FileRead.absent => { index := resetIndex, ready := false }
  | _, FileRead.ioError consumed =>
      { index := buildStatsFromDictionary resetIndex consumed, ready := false }
  | _, FileRead.ok lines =>
      { index := buildStatsFromDictionary resetIndex lines, ready := true }

/-- Source `getSyllableCount`: dispatch on the syllable's length, `|| null`. -/
def getSyllableCount (st : ServerIndex) (syl : List Char) : Option Nat :=
  if syl.isEmpty then none
  else
    let m := st.syllableCounts syl.length
    match mget m (jsUpper syl) with
    | some c => if c = 0 then none else some c
    | none => none

/-- Source `dictHas`: membership by FNV hash, false while the set is `null`. -/
def dictHas (st : ServerIndex) (word : List Char) : Bool :=
  match st.dictionarySet with
  | none => false
  | some s => s.contains (hashWord word)

-- ---------------------------------------------------------------------------
-- Counting lemmas for the dictionary builder
-- ---------------------------------------------------------------------------

theorem mem_foldl_firstDedup {α : Type} [DecidableEq α] (l acc : List α) (x : α) :
    x ∈ l.foldl (fun acc a => if a ∈ acc then acc else acc ++ [a]) acc ↔ x ∈ acc ∨ x ∈ l := by
  induction l generalizing acc with
  | nil => simp
  | cons a t ih =>
      simp only [List.foldl_cons]
      rw [ih]
      by_cases h : a ∈ acc
      · simp only [if_pos h, List.mem_cons]
        constructor
        · rintro (hx | hx)
          · exact Or.inl hx
          · exact Or.inr (Or.inr hx)
        · rintro (hx | hx | hx)
          · exact Or.inl hx
          · exact Or.inl (hx ▸ h)
          · exact Or.inr hx
      · simp only [if_neg h, List.mem_append, List.mem_cons, List.mem_singleton]
        tauto

theorem mem_firstDedup {α : Type} [DecidableEq α] (l : List α) (x : α) :
    x ∈ firstDedup l ↔ x ∈ l := by
  unfold firstDedup
  rw [mem_foldl_firstDedup]
  simp

theorem nodup_foldl_firstDedup {α : Type} [DecidableEq α] (l : List α) :
    ∀ acc : List α, acc.Nodup →
      (l.foldl (fun acc a => if a ∈ acc then acc else acc ++ [a]) acc).Nodup := by
  induction l with
  | nil => intro acc h; simpa using h
  | cons a t ih =>
      intro acc h
      simp only [List.foldl_cons]
      by_cases ha : a ∈ acc
      · rw [if_pos ha]; exact ih acc h
      · rw [if_neg ha]
        refine ih (acc ++ [a]) ?_
        simp [List.nodup_append, h, ha]

theorem nodup_firstDedup {α : Type} [DecidableEq α] (l : List α) : (firstDedup l).Nodup :=
  nodup_foldl_firstDedup l [] List.nodup_nil

theorem foldl_bumpSyl_counts_other (L : Nat) (word : List Char)
    (seen : List (List Char)) (acc : ServerIndex) (L' : Nat) (h : L' ≠ L) :
    ((seen.foldl (bumpSyl L word) acc).syllableCounts L') = acc.syllableCounts L' := by
  induction seen generalizing acc with
  | nil => rfl
  | cons s t ih =>
      simp only [List.foldl_cons]
      rw [ih]
      simp [bumpSyl, h]

theorem foldl_bumpSyl_counts_self (L : Nat) (word : List Char)
    (seen : List (List Char)) (s : List Char) (hnd : seen.Nodup) :
    ∀ acc : ServerIndex,
      mgetD ((seen.foldl (bumpSyl L word) acc).syllableCounts L) s 0
        = mgetD (acc.syllableCounts L) s 0 + (if s ∈ seen then 1 else 0) := by
  induction seen with
  | nil => intro acc; simp
  | cons a t ih =>
      intro acc
      have ha : a ∉ t := (List.nodup_cons.mp hnd).1
      have hnd' : t.Nodup := (List.nodup_cons.mp hnd).2
      simp only [List.foldl_cons]
      rw [ih hnd']
      have hstep : mgetD ((bumpSyl L word acc a).syllableCounts L) s 0
          = if s = a then mgetD (acc.syllableCounts L) a 0 + 1
            else mgetD (acc.syllableCounts L) s 0 := by
        simp [bumpSyl, mgetD_mset]
      rw [hstep]
      by_cases hsa : s = a
      · subst hsa
        rw [if_pos rfl, if_neg ha, if_pos (List.mem_cons_self s t)]
      · rw [if_neg hsa]
        by_cases hst : s ∈ t
        · rw [if_pos hst, if_pos (List.mem_cons_of_mem a hst)]
        · rw [if_neg hst, if_neg (by simp [hsa, hst])]

theorem processLine_counts (st : ServerIndex) (line : List Char) (L : Nat)
    (hL : L ∈ LENGTHS) (s : List Char) :
    mgetD ((processLine st line).syllableCounts L) s 0
      = mgetD (st.syllableCounts L) s 0 +
        (if !(normalizeWord line).isEmpty && decide (s ∈ seenSyls L (normalizeWord line))
         then 1 else 0) := by
  by_cases hw : (normalizeWord line).isEmpty
  · simp [processLine, hw]
  · have hempty : (normalizeWord line).isEmpty = false := by
      simpa using hw
    simp only [processLine, hempty, Bool.false_eq_true, if_false, Bool.not_false,
      Bool.true_and, LENGTHS, List.foldl_cons, List.foldl_nil]
    have hset : ({ st with
        dictionarySet := some ((st.dictionarySet.getD []) ++ [hashWord (normalizeWord line)]) }
          : ServerIndex).syllableCounts = st.syllableCounts := rfl
    have hnd : ∀ Lx, (seenSyls Lx (normalizeWord line)).Nodup := fun Lx =>
      nodup_firstDedup _
    have hL' : L = 2 ∨ L = 3 ∨ L = 4 := by
      simpa [LENGTHS] using hL
    rcases hL' with h2 | h3 | h4
    · subst h2
      simp only [bumpLen]
      rw [foldl_bumpSyl_counts_other 4 _ _ _ 2 (by decide),
        foldl_bumpSyl_counts_other 3 _ _ _ 2 (by decide),
        foldl_bumpSyl_counts_self 2 _ _ s (hnd 2), hset]
      by_cases hmem : s ∈ seenSyls 2 (normalizeWord line) <;> simp [seenSyls, hmem]
    · subst h3
      simp only [bumpLen]
      rw [foldl_bumpSyl_counts_other 4 _ _ _ 3 (by decide),
        foldl_bumpSyl_counts_self 3 _ _ s (hnd 3)]
      rw [foldl_bumpSyl_counts_other 2 _ _ _ 3 (by decide), hset]
      by_cases hmem : s ∈ seenSyls 3 (normalizeWord line) <;> simp [seenSyls, hmem]
    · subst h4
      simp only [bumpLen]
      rw [foldl_bumpSyl_counts_self 4 _ _ s (hnd 4)]
      rw [foldl_bumpSyl_counts_other 3 _ _ _ 4 (by decide),
        foldl_bumpSyl_counts_other 2 _ _ _ 4 (by decide), hset]
      by_cases hmem : s ∈ seenSyls 4 (normalizeWord line) <;> simp [seenSyls, hmem]

theorem foldl_processLine_counts (lines : List (List Char)) (L : Nat)
    (hL : L ∈ LENGTHS) (s : List Char) :
    ∀ st : ServerIndex,
      mgetD ((lines.foldl processLine st).syllableCounts L) s 0
        = mgetD (st.syllableCounts L) s 0 +
          lines.countP
            (fun line => !(normalizeWord line).isEmpty &&
              decide (s ∈ seenSyls L (normalizeWord line))) := by
  induction lines with
  | nil => intro st; simp
  | cons line rest ih =>
      intro st
      simp only [List.foldl_cons, List.countP_cons]
      rw [ih, processLine_counts st line L hL s]
      omega

theorem foldl_firstDedup_of_nodup {α : Type} [DecidableEq α] (l : List α) :
    ∀ acc : List α, (acc ++ l).Nodup →
      l.foldl (fun acc a => if a ∈ acc then acc else acc ++ [a]) acc = acc ++ l := by
  induction l with
  | nil => intro acc _; simp
  | cons a t ih =>
      intro acc h
      have ha : a ∉ acc := by
        intro hmem
        exact (List.disjoint_left.mp (List.nodup_append.mp h).2.2) hmem
          (List.mem_cons_self a t)
      simp only [List.foldl_cons, if_neg ha]
      have h2 : ((acc ++ [a]) ++ t).Nodup := by
        rw [List.append_assoc, List.singleton_append]
        exact h
      rw [ih (acc ++ [a]) h2, List.append_assoc, List.singleton_append]

theorem firstDedup_of_nodup {α : Type} [DecidableEq α] (l : List α) (h : l.Nodup) :
    firstDedup l = l := by
  unfold firstDedup
  simpa using foldl_firstDedup_of_nodup l [] (by simpa using h)

/-- Spec-side definition, following the claim's words: the number of DISTINCT
non-empty normalized dictionary lines that contain `s` as an all-letter
substring of some hyphen-separated part. -/
def specDistinctLineCount (lines : List (List Char)) (L : Nat) (s : List Char) : Nat :=
  (firstDedup ((lines.map normalizeWord).filter (fun w => !w.isEmpty))).countP
    (fun w => decide (s ∈ seenSyls L w))

/-- Code-side per-line predicate: the normalized line is non-empty and carries
`s` in its per-word length-`L` syllable set. -/
def lineCarries (L : Nat) (s : List Char) (line : List Char) : Bool :=
  !(normalizeWord line).isEmpty && decide (s ∈ seenSyls L (normalizeWord line))

/-- C3 (counterexample): on a dictionary file whose two lines are both `AB`,
the stored count of syllable `AB` is 2, while the number of distinct
non-empty normalized lines containing `AB` is 1 — so the stored count does
not equal the distinct-line count claimed. -/
theorem c3_counterexample :
    mgetD ((buildStatsFromDictionary emptyIndex
        ["AB".toList, "AB".toList]).syllableCounts 2) "AB".toList 0 = 2 ∧
    specDistinctLineCount ["AB".toList, "AB".toList] 2 "AB".toList = 1 ∧
    (2 : Nat) ≠ 1 := by
  refine ⟨by decide, by decide, by decide⟩

/-- C3 (amended): after building from any dictionary file, for every length
`L ∈ {2,3,4}` and syllable `s`, the stored count for `s` equals the number of
non-empty normalized LINES (counted with multiplicity — each line contributing
at most once even when `s` occurs several times in it, hyphen parts scanned
independently, only all-letter substrings qualifying); when the non-empty
normalized lines are pairwise distinct this coincides with the claimed
distinct-word count. -/
theorem c3_amended (lines : List (List Char)) (L : Nat) (s : List Char)
    (hL : L ∈ LENGTHS) :
    mgetD ((buildStatsFromDictionary emptyIndex lines).syllableCounts L) s 0
      = lines.countP (lineCarries L s) ∧
    (((lines.map normalizeWord).filter (fun w => !w.isEmpty)).Nodup →
      mgetD ((buildStatsFromDictionary emptyIndex lines).syllableCounts L) s 0
        = specDistinctLineCount lines L s) := by
  have hmain : mgetD ((buildStatsFromDictionary emptyIndex lines).syllableCounts L) s 0
      = lines.countP (lineCarries L s) := by
    unfold buildStatsFromDictionary
    rw [foldl_processLine_counts lines L hL s]
    have hcp : lines.countP
        (fun line => !(normalizeWord line).isEmpty &&
          decide (s ∈ seenSyls L (normalizeWord line)))
        = lines.countP (lineCarries L s) := List.countP_congr (fun a _ => Iff.rfl)
    rw [hcp]
    simp [mgetD, mget, emptyIndex, List.find?]
  refine ⟨hmain, fun hnd => ?_⟩
  rw [hmain]
  unfold specDistinctLineCount
  rw [firstDedup_of_nodup _ hnd]
  rw [List.countP_filter, List.countP_map]
  refine List.countP_congr ?_
  intro line _
  simp [lineCarries, Function.comp, Bool.and_comm]

/-- Witness for `c3_amended` at a concrete dictionary. -/
theorem c3_amended_witness :
    (2 ∈ LENGTHS) ∧
    (mgetD ((buildStatsFromDictionary emptyIndex
        ["ab".toList, "RAB".toList]).syllableCounts 2) "AB".toList 0
      = ["ab".toList, "RAB".toList].countP (lineCarries 2 "AB".toList) ∧
    (((["ab".toList, "RAB".toList].map normalizeWord).filter (fun w => !w.isEmpty)).Nodup →
      mgetD ((buildStatsFromDictionary emptyIndex
          ["ab".toList, "RAB".toList]).syllableCounts 2) "AB".toList 0
        = specDistinctLineCount ["ab".toList, "RAB".toList] 2 "AB".toList)) :=
  ⟨by decide, c3_amended ["ab".toList, "RAB".toList] 2 "AB".toList (by decide)⟩

/-- C1 (counterexample): build once from a one-line dictionary `BA` (count of
syllable `BA` becomes 1), then rebuild with the file absent — the count query
now returns `null`, so the prior index is NOT left in place. -/
theorem c1_counterexample :
    getSyllableCount
        (prepare { index := emptyIndex, ready := false }
          (FileRead.ok ["BA".toList])).index "BA".toList = some 1 ∧
    getSyllableCount
        (prepare
          (prepare { index := emptyIndex, ready := false } (FileRead.ok ["BA".toList]))
          FileRead.absent).index "BA".toList = none := by
  refine ⟨by decide, by decide⟩

/-- C1 (amended): `prepare` resets the whole index BEFORE building, so a
failed rebuild does not preserve the prior index: with the file absent the
resulting index is the freshly reset (empty) one with `ready = false`; after
a mid-read error it holds exactly the prefix processed before the error, with
`ready = false`; and the result never depends on the prior index at all. -/
theorem c1_amended (prior prior2 : DictState) :
    prepare prior FileRead.absent = { index := resetIndex, ready := false } ∧
    (∀ consumed, prepare prior (FileRead.ioError consumed)
        = { index := buildStatsFromDictionary resetIndex consumed, ready := false }) ∧
    (∀ file, prepare prior file = prepare prior2 file) := by
  refine ⟨rfl, fun _ => rfl, fun file => ?_⟩
  cases file <;> rfl

-- ---------------------------------------------------------------------------
-- Scenario selector (server.js pickServerSyllable)
-- ---------------------------------------------------------------------------

/-- Source `ALL_LENGTHS`. -/
def ALL_LENGTHS : List Nat := [2, 3, 4]

/-- Stream of pre-drawn random indices: `draws i` models the `i`-th
`Math.floor(Math.random() * n)` of one `pickServerSyllable` call, reduced
`% n` at use.  The supports coincide with the JS draw; distributions are
outside the scope of the claims. -/
structure Rng where
  draws : Nat → Nat

/-- The `i`-th draw as an index below `n`. -/
def pickIdx (r : Rng) (i n : Nat) : Nat := r.draws i % n

/-- Scenario string normalization (`String(scenario).trim().toLowerCase()`,
empty for a falsy scenario). -/
def scenarioNorm (scenario : Option (List Char)) : List Char :=
  match scenario with
  | some s => jsLower (jsTrim s)
  | none => []

/-- Allowed syllable lengths by scenario (source lines 1111-1122). -/
def psAllowedLengths (scenario : Option (List Char)) : List Nat :=
  let sc := scenarioNorm scenario
  if sc = "4 lettres".toList then [4]
  else if sc = "sub8".toList ∨ sc = "sub50".toList then [2, 3]
  else [2, 3]

/-- Lengths whose count map has data (source line 1125). -/
def psAvailableLengths (counts : Nat → List (List Char × Nat))
    (scenario : Option (List Char)) : List Nat :=
  (psAllowedLengths scenario).filter (fun L => !(counts L).isEmpty)

/-- Count filter by scenario (source lines 1140-1145; a falsy scenario —
`none` or the empty string — yields no filter). -/
def psCountFilter (scenario : Option (List Char)) : Option (Nat → Bool) :=
  match scenario with
  | none => none
  | some s =>
      if s.isEmpty then none
      else
        let sc := jsLower (jsTrim s)
        if sc = "sub8".toList then some (fun c => c ≤ 8)
        else if sc = "sub50".toList then some (fun c => c ≤ 50)
        else none

/-- The length drawn uniformly among the available ones (source line 1148). -/
def psChosenLen (counts : Nat → List (List Char × Nat))
    (scenario : Option (List Char)) (rng : Rng) : Nat :=
  let available := psAvailableLengths counts scenario
  available.getD (pickIdx rng 1 available.length) 2

/-- Selection within the chosen length's map (source lines 1149-1183): drop
used syllables, apply the count filter, on emptiness clear `usedSyllables`
and retry with the count filter alone, then fall back to the whole map; the
final draw (sqrt-weighted without a count filter, uniform with one) is
embedded support-faithfully by an rng index into the final entry list.
Returns the syllable together with the possibly cleared `usedSyllables`. -/
def pickFromLength (m : List (List Char × Nat)) (used : List (List Char))
    (countFilter : Option (Nat → Bool)) (rng : Rng) :
    List Char × List (List Char) :=
  let entries0 := m.filter (fun p => !(decide (p.1 ∈ used)))
  let entries1 :=
    match countFilter with
    | some cf => entries0.filter (fun p => cf p.2)
    | none => entries0
  let cleared := entries1.isEmpty && countFilter.isSome
  let used2 := if cleared then [] else used
  let entries2 :=
    if cleared then
      match countFilter with
      | some cf => m.filter (fun p => cf p.2)
      | none => entries1
    else entries1
  let entries3 := if entries2.isEmpty then m else entries2
  ((entries3.getD (pickIdx rng 2 entries3.length) ("RE".toList, 0)).1, used2)

/-- Source `pickServerSyllable`: scenario-dependent lengths, fallback scan of
`ALL_LENGTHS` when no allowed length has data (absolute last resort `RE`),
then selection within one randomly chosen length. -/
def pickServerSyllable (counts : Nat → List (List Char × Nat))
    (usedSyllables : List (List Char)) (scenario : Option (List Char))
    (rng : Rng) : List Char × List (List Char) :=
  if (psAvailableLengths counts scenario).isEmpty then
    match ALL_LENGTHS.find? (fun fl => !(counts fl).isEmpty) with
    | some fl =>
        let keys := (counts fl).map Prod.fst
        (keys.getD (pickIdx rng 0 keys.length) "RE".toList, usedSyllables)
    | none => ("RE".toList, usedSyllables)
  else
    pickFromLength (counts (psChosenLen counts scenario rng)) usedSyllables
      (psCountFilter scenario) rng

theorem getD_mod_mem {α : Type} (l : List α) (d : α) (i : Nat) (h : ¬ l.isEmpty) :
    l.getD (i % l.length) d ∈ l := by
  have hne : l ≠ [] := by
    intro he; subst he; simp at h
  have hlen : 0 < l.length := List.length_pos.mpr hne
  have hlt : i % l.length < l.length := Nat.mod_lt _ hlen
  rw [List.getD_eq_getElem l d hlt]
  exact List.getElem_mem hlt

theorem pickFromLength_eq_of_exhausted (m : List (List Char × Nat))
    (used : List (List Char)) (cf : Nat → Bool) (rng : Rng)
    (h1 : (m.filter (fun p => !(decide (p.1 ∈ used)))).filter (fun p => cf p.2) = [])
    (h2 : m.filter (fun p => cf p.2) ≠ []) :
    pickFromLength m used (some cf) rng =
      (((m.filter (fun p => cf p.2)).getD
          (pickIdx rng 2 (m.filter (fun p => cf p.2)).length) ("RE".toList, 0)).1, []) := by
  have he1 : ((m.filter (fun p => !(decide (p.1 ∈ used)))).filter
      (fun p => cf p.2)).isEmpty = true := by
    simp [List.isEmpty_iff, h1]
  have he2 : (m.filter (fun p => cf p.2)).isEmpty = false := by
    simp [List.isEmpty_iff, h2]
  unfold pickFromLength
  simp [-List.filter_filter, he1, he2]

theorem pickFromLength_eq_of_remaining (m : List (List Char × Nat))
    (used : List (List Char)) (cf : Nat → Bool) (rng : Rng)
    (h1 : (m.filter (fun p => !(decide (p.1 ∈ used)))).filter (fun p => cf p.2) ≠ []) :
    pickFromLength m used (some cf) rng =
      ((((m.filter (fun p => !(decide (p.1 ∈ used)))).filter (fun p => cf p.2)).getD
          (pickIdx rng 2
            ((m.filter (fun p => !(decide (p.1 ∈ used)))).filter (fun p => cf p.2)).length)
          ("RE".toList, 0)).1, used) := by
  have he1 : ((m.filter (fun p => !(decide (p.1 ∈ used)))).filter
      (fun p => cf p.2)).isEmpty = false := by
    cases hcase : ((m.filter (fun p => !(decide (p.1 ∈ used)))).filter
        (fun p => cf p.2)).isEmpty
    · rfl
    · exact absurd (List.isEmpty_iff.mp hcase) h1
  unfold pickFromLength
  simp only [Option.isSome_some, Bool.and_true, he1, Bool.false_eq_true, if_false]

theorem pickFromLength_filter_spec (m : List (List Char × Nat))
    (used : List (List Char)) (cf : Nat → Bool) (rng : Rng)
    (hex : ∃ p ∈ m, cf p.2) :
    (∃ c, ((pickFromLength m used (some cf) rng).1, c) ∈ m ∧ cf c) ∧
    ((∃ p ∈ m, cf p.2 ∧ p.1 ∉ used) →
      (pickFromLength m used (some cf) rng).1 ∉ used ∧
      (pickFromLength m used (some cf) rng).2 = used) ∧
    ((∀ p ∈ m, cf p.2 → p.1 ∈ used) →
      (pickFromLength m used (some cf) rng).2 = [] ∧
      ∃ c, ((pickFromLength m used (some cf) rng).1, c) ∈ m ∧ cf c) := by
  classical
  have hfne : m.filter (fun p => cf p.2) ≠ [] := by
    obtain ⟨p, hpm, hpc⟩ := hex
    intro he
    have hp : p ∈ m.filter (fun p => cf p.2) := List.mem_filter.mpr ⟨hpm, hpc⟩
    rw [he] at hp
    exact List.not_mem_nil p hp
  by_cases h1 : (m.filter (fun p => !(decide (p.1 ∈ used)))).filter (fun p => cf p.2) = []
  · -- the count-filtered unused entries are exhausted: clear and restart
    rw [pickFromLength_eq_of_exhausted m used cf rng h1 hfne]
    have hq : (m.filter (fun p => cf p.2)).getD
        (pickIdx rng 2 (m.filter (fun p => cf p.2)).length) ("RE".toList, 0)
          ∈ m.filter (fun p => cf p.2) := by
      unfold pickIdx
      exact getD_mod_mem _ _ _ (by simpa [List.isEmpty_iff] using hfne)
    obtain ⟨hqm, hqc⟩ := List.mem_filter.mp hq
    refine ⟨⟨_, hqm, hqc⟩, ?_, fun _ => ⟨rfl, ⟨_, hqm, hqc⟩⟩⟩
    rintro ⟨p, hpm, hpc, hpu⟩
    exfalso
    have hp : p ∈ (m.filter (fun p => !(decide (p.1 ∈ used)))).filter (fun p => cf p.2) :=
      List.mem_filter.mpr ⟨List.mem_filter.mpr ⟨hpm, by simpa using hpu⟩, hpc⟩
    rw [h1] at hp
    exact List.not_mem_nil p hp
  · -- unused in-filter entries remain: draw among them, keep the used set
    rw [pickFromLength_eq_of_remaining m used cf rng h1]
    have hq : ((m.filter (fun p => !(decide (p.1 ∈ used)))).filter (fun p => cf p.2)).getD
        (pickIdx rng 2
          ((m.filter (fun p => !(decide (p.1 ∈ used)))).filter (fun p => cf p.2)).length)
        ("RE".toList, 0)
          ∈ (m.filter (fun p => !(decide (p.1 ∈ used)))).filter (fun p => cf p.2) := by
      unfold pickIdx
      exact getD_mod_mem _ _ _ (by simpa [List.isEmpty_iff] using h1)
    obtain ⟨hq0, hqc⟩ := List.mem_filter.mp hq
    obtain ⟨hqm, hqu⟩ := List.mem_filter.mp hq0
    refine ⟨⟨_, hqm, hqc⟩, fun _ => ⟨by simpa using hqu, rfl⟩, fun hall => ?_⟩
    exfalso
    exact (by simpa using hqu : _ ∉ used) (hall _ hqm hqc)

theorem pickServerSyllable_of_available (counts : Nat → List (List Char × Nat))
    (used : List (List Char)) (scenario : Option (List Char)) (rng : Rng)
    (hav : ¬ (psAvailableLengths counts scenario).isEmpty) :
    pickServerSyllable counts used scenario rng
      = pickFromLength (counts (psChosenLen counts scenario rng)) used
          (psCountFilter scenario) rng := by
  unfold pickServerSyllable
  rw [if_neg hav]

/-- Index used by the C2 counterexample: length 2 has one rare syllable `AB`
(count 5 ≤ 8), length 3 has only the frequent syllable `ABC` (count 100). -/
def c2cexCounts : Nat → List (List Char × Nat) := fun L =>
  if L = 2 then [("AB".toList, 5)]
  else if L = 3 then [("ABC".toList, 100)]
  else []

/-- C2 (counterexample): under scenario `sub8`, with the length draw landing
on length 3, the server emits `ABC` whose count 100 violates the `count ≤ 8`
filter although the allowed-length-2 syllable `AB` (count 5) satisfies it —
the filter is only enforced within the one randomly chosen length. -/
theorem c2_counterexample :
    (pickServerSyllable c2cexCounts [] (some "sub8".toList) ⟨fun _ => 1⟩).1
        = "ABC".toList ∧
    ("ABC".toList, 100) ∈ c2cexCounts 3 ∧ ¬ (100 ≤ 8) ∧
    ("AB".toList, 5) ∈ c2cexCounts 2 ∧ 5 ≤ 8 ∧
    2 ∈ psAllowedLengths (some "sub8".toList) := by
  refine ⟨by decide, by decide, by decide, by decide, by decide, by decide⟩

/-- C2 (amended): for a room playing under `sub8` (resp. `sub50`), selection
works within the single randomly CHOSEN length `psChosenLen`: whenever some
syllable of that length satisfies the count filter, the emitted syllable
satisfies it too; the emitted syllable is not taken from `usedSyllables`
(and the set is kept) whenever an unused in-filter candidate of that length
exists; and when every in-filter candidate of that length is used, the set is
cleared and selection restarts among that length's in-filter candidates.
Falling outside the filter is possible only when the chosen length has no
in-filter candidate at all. -/
theorem c2_amended (counts : Nat → List (List Char × Nat)) (used : List (List Char))
    (scenario : Option (List Char)) (N : Nat) (rng : Rng)
    (hsc : (scenario = some "sub8".toList ∧ N = 8) ∨
      (scenario = some "sub50".toList ∧ N = 50))
    (hex : ∃ p ∈ counts (psChosenLen counts scenario rng), p.2 ≤ N)
    (hav : ¬ (psAvailableLengths counts scenario).isEmpty) :
    (∃ c, ((pickServerSyllable counts used scenario rng).1, c)
        ∈ counts (psChosenLen counts scenario rng) ∧ c ≤ N) ∧
    ((∃ p ∈ counts (psChosenLen counts scenario rng), p.2 ≤ N ∧ p.1 ∉ used) →
      (pickServerSyllable counts used scenario rng).1 ∉ used ∧
      (pickServerSyllable counts used scenario rng).2 = used) ∧
    ((∀ p ∈ counts (psChosenLen counts scenario rng), p.2 ≤ N → p.1 ∈ used) →
      (pickServerSyllable counts used scenario rng).2 = [] ∧
      ∃ c, ((pickServerSyllable counts used scenario rng).1, c)
          ∈ counts (psChosenLen counts scenario rng) ∧ c ≤ N) := by
  have hrw := pickServerSyllable_of_available counts used scenario rng hav
  have hcf : psCountFilter scenario = some (fun c => decide (c ≤ N)) := by
    rcases hsc with ⟨hs, hN⟩ | ⟨hs, hN⟩ <;> subst hs <;> subst hN <;> rfl
  rw [hrw, hcf]
  have hex' : ∃ p ∈ counts (psChosenLen counts scenario rng),
      (fun c => decide (c ≤ N)) p.2 := by
    obtain ⟨p, hpm, hple⟩ := hex
    exact ⟨p, hpm, by simpa using hple⟩
  have hspec := pickFromLength_filter_spec
    (counts (psChosenLen counts scenario rng)) used (fun c => decide (c ≤ N)) rng hex'
  refine ⟨?_, ?_, ?_⟩
  · obtain ⟨c, hc, hcle⟩ := hspec.1
    exact ⟨c, hc, by simpa using hcle⟩
  · intro hex2
    refine hspec.2.1 ?_
    obtain ⟨p, hpm, hple, hpu⟩ := hex2
    exact ⟨p, hpm, by simpa using hple, hpu⟩
  · intro hall
    obtain ⟨h2a, c, hc, hcle⟩ := hspec.2.2
      (fun p hp hcb => hall p hp (by simpa using hcb))
    exact ⟨h2a, c, hc, by simpa using hcle⟩

/-- Index for the C2 witness: length 2 holds a rare and a frequent syllable. -/
def c2wCounts : Nat → List (List Char × Nat) := fun L =>
  if L = 2 then [("AB".toList, 5), ("BA".toList, 20)] else []

/-- Rng for the C2 witness. -/
def c2wRng : Rng := ⟨fun _ => 0⟩

/-- Witness for `c2_amended` at a concrete index under scenario `sub8`. -/
theorem c2_amended_witness :
    (∃ c, ((pickServerSyllable c2wCounts [] (some "sub8".toList) c2wRng).1, c)
        ∈ c2wCounts (psChosenLen c2wCounts (some "sub8".toList) c2wRng) ∧ c ≤ 8) ∧
    ((∃ p ∈ c2wCounts (psChosenLen c2wCounts (some "sub8".toList) c2wRng),
        p.2 ≤ 8 ∧ p.1 ∉ ([] : List (List Char))) →
      (pickServerSyllable c2wCounts [] (some "sub8".toList) c2wRng).1
          ∉ ([] : List (List Char)) ∧
      (pickServerSyllable c2wCounts [] (some "sub8".toList) c2wRng).2 = []) ∧
    ((∀ p ∈ c2wCounts (psChosenLen c2wCounts (some "sub8".toList) c2wRng),
        p.2 ≤ 8 → p.1 ∈ ([] : List (List Char))) →
      (pickServerSyllable c2wCounts [] (some "sub8".toList) c2wRng).2 = [] ∧
      ∃ c, ((pickServerSyllable c2wCounts [] (some "sub8".toList) c2wRng).1, c)
          ∈ c2wCounts (psChosenLen c2wCounts (some "sub8".toList) c2wRng) ∧ c ≤ 8) :=
  c2_amended c2wCounts [] (some "sub8".toList) 8 c2wRng (Or.inl ⟨rfl, rfl⟩)
    (by decide) (by decide)

-- ---------------------------------------------------------------------------
-- Room and session model (roomManager.js)
-- ---------------------------------------------------------------------------

/-- JS `a || b` on strings: `b` when `a` is undefined or empty. -/
def jsOrStr (o : Option String) (d : String) : String :=
  match o with
  | some s => if s = "" then d else s
  | none => d

/-- Room game phase. -/
inductive GState where
  | lobby : GState
  | playing : GState
  | finished : GState
deriving DecidableEq, Repr

/-- A player record embedded in a room (fields absent on the JS object are
`none` / `false`). -/
structure Player where
  token : Option String
  socketId : String
  name : Option String
  avatar : String
  isHost : Bool
  isReady : Bool
  lives : Nat
  wordsFound : Nat
  isAlive : Bool
  disconnected : Bool
deriving DecidableEq, Repr

/-- A pending spectator awaiting promotion at `endGame`. -/
structure Spectator where
  token : String
  socketId : String
  name : Option String
  avatar : Option String
deriving DecidableEq, Repr

/-- Per-room game data (source `room.game`; fields the source leaves
`undefined` start as `none` / `false` / `0` / `[]`). -/
structure GameData where
  currentSyllable : Option (List Char)
  currentPlayerIndex : Nat
  roundNumber : Nat
  startTime : Option Nat
  timer : Bool
  timerEndTime : Option Nat
  timerTotal : Option Nat
  paused : Bool
  pausedRemaining : Option Nat
  pausedAt : Option Nat
  usedSyllables : List (List Char)
  serverControlledUntil : Nat
deriving DecidableEq, Repr

/-- Room settings (`extraTurnSeconds` absent ≡ 0 through `Number(x) || 0`). -/
structure Settings where
  scenario : Option (List Char)
  wpp : Option String
  maxPlayers : Nat
  startingLives : Nat
  extraTurnSeconds : Nat
deriving DecidableEq, Repr

/-- A room (source `_recentlyLeft` entries are the snapshot player plus the
`leftAt` timestamp; `_displayPlayerCount` is `none` until set). -/
structure Room where
  id : String
  name : String
  host : Option String
  hostAvatar : String
  hostToken : Option String
  pendingSpectators : List Spectator
  players : List Player
  gameState : GState
  settings : Settings
  game : GameData
  createdAt : Nat
  recentlyLeft : List (Player × Nat)
  displayPlayerCount : Option Nat
deriving DecidableEq, Repr

/-- A session (source `{ socketId, roomId }` plus `_lastDisconnectTime`). -/
structure Session where
  socketId : Option String
  roomId : Option String
  lastDisconnectTime : Option Nat
deriving DecidableEq, Repr

/-- The RoomManager state: three JS `Map`s. -/
structure RMState where
  rooms : List (String × Room)
  sessions : List (String × Session)
  sockets : List (String × String)
deriving DecidableEq, Repr

/-- The manager state at construction. -/
def emptyRM : RMState := { rooms := [], sessions := [], sockets := [] }

/-- Source `registerSocket`: re-bind an existing session's socket (detaching
the old reverse entry) or create a fresh session; always bind the new
socketId and return the session. -/
def registerSocket (st : RMState) (sessionToken socketId : String) :
    RMState × Session :=
  match mget st.sessions sessionToken with
  | some existing =>
      let sockets1 :=
        match existing.socketId with
        | some old => mdel st.sockets old
        | none => st.sockets
      let existing2 := { existing with socketId := some socketId }
      let sessions2 := mset st.sessions sessionToken existing2
      ({ st with sessions := sessions2, sockets := mset sockets1 socketId sessionToken },
        existing2)
  | none =>
      let s : Session :=
        { socketId := some socketId, roomId := none, lastDisconnectTime := none }
      let sessions2 := mset st.sessions sessionToken s
      ({ st with sessions := sessions2, sockets := mset st.sockets socketId sessionToken },
        s)

/-- Source `unregisterSocket`: drop the reverse entry and clear the session's
socketId when it still points at this socket; return the token if known. -/
def unregisterSocket (st : RMState) (socketId : String) :
    RMState × Option String :=
  let sockets1 := mdel st.sockets socketId
  match mget st.sockets socketId with
  | some token =>
      match mget st.sessions token with
      | some session =>
          if session.socketId = some socketId then
            let sessions2 := mset st.sessions token { session with socketId := none }
            ({ st with sockets := sockets1, sessions := sessions2 }, some token)
          else ({ st with sockets := sockets1 }, some token)
      | none => ({ st with sockets := sockets1 }, some token)
  | none => ({ st with sockets := sockets1 }, none)

/-- Payload of `createRoom`. -/
structure RoomData where
  id : Option String
  name : Option String
  host : Option String
  hostAvatar : Option String
  scenario : Option (List Char)
  wpp : Option String
deriving DecidableEq, Repr

/-- Source `createRoom`: a fresh room whose only player is the ready,
host-flagged creator; `genId` stands for the `generateId` draw and `now` for
`Date.now()`. -/
def createRoom (st : RMState) (roomData : RoomData) (hostSocketId hostToken : String)
    (genId : String) (now : Nat) : RMState × Room :=
  let roomId := roomData.id.getD genId
  let hostPlayer : Player :=
    { token := some hostToken, socketId := hostSocketId,
      name := roomData.host, avatar := jsOrStr roomData.hostAvatar "",
      isHost := true, isReady := true, lives := 2, wordsFound := 0,
      isAlive := true, disconnected := false }
  let freshGame : GameData :=
    { currentSyllable := none, currentPlayerIndex := 0, roundNumber := 0,
      startTime := none, timer := false, timerEndTime := none, timerTotal := none,
      paused := false, pausedRemaining := none, pausedAt := none,
      usedSyllables := [], serverControlledUntil := 0 }
  let room : Room :=
    { id := roomId, name := jsOrStr roomData.name "Salle de jeu",
      host := roomData.host, hostAvatar := jsOrStr roomData.hostAvatar "",
      hostToken := some hostToken, pendingSpectators := [],
      players := [hostPlayer], gameState := GState.lobby,
      settings := { scenario := roomData.scenario, wpp := roomData.wpp,
                    maxPlayers := 6, startingLives := 2, extraTurnSeconds := 0 },
      game := freshGame, createdAt := now, recentlyLeft := [],
      displayPlayerCount := none }
  let sessions1 :=
    match mget st.sessions hostToken with
    | some s => mset st.sessions hostToken { s with roomId := some roomId }
    | none => st.sessions
  ({ st with rooms := mset st.rooms roomId room, sessions := sessions1 }, room)

/-- Update the first player matching a token, mirroring JS `find` returning a
mutable reference. -/
def updateFirstPlayer (ps : List Player) (tok : Option String)
    (f : Player → Player) : List Player :=
  match ps with
  | [] => []
  | p :: rest =>
      if p.token = tok then f p :: rest else p :: updateFirstPlayer rest tok f

/-- Payload of `joinRoom`. -/
structure PlayerData where
  name : Option String
  avatar : Option String
deriving DecidableEq, Repr

/-- Result of `joinRoom`. -/
inductive JoinResult where
  | error (msg : String) : JoinResult
  | success (reconnected : Bool) : JoinResult
deriving DecidableEq, Repr

/-- Session refresh on (re)admission: bind socket and room, cancel the grace
timer marker. -/
def sessionRejoin (sessions : List (String × Session)) (token socketId roomId : String) :
    List (String × Session) :=
  match mget sessions token with
  | some s =>
      let s2 :=
        { s with
          socketId := some socketId
          roomId := some roomId
          lastDisconnectTime := none }
      mset sessions token s2
  | none => sessions

/-- Source `joinRoom`, the four cases in order: reconnection of a token
already among the players; room full; game in progress (re-admission only for
the returning host or a `_recentlyLeft` token, restoring the snapshot);
fresh join. -/
def joinRoom (st : RMState) (roomId : String) (playerData : PlayerData)
    (socketId token : String) : RMState × JoinResult :=
  match mget st.rooms roomId with
  | none => (st, JoinResult.error "Salle introuvable")
  | some room =>
    match room.players.find? (fun p => decide (p.token = some token)) with
    | some _ =>
        let room1 := { room with
          players := updateFirstPlayer room.players (some token)
            (fun p => { p with socketId := socketId }) }
        let st1 :=
          { st with
            rooms := mset st.rooms roomId room1
            sessions := sessionRejoin st.sessions token socketId roomId }
        (st1, JoinResult.success true)
    | none =>
      if room.players.length ≥ room.settings.maxPlayers then
        (st, JoinResult.error "Salle pleine")
      else if room.gameState = GState.playing then
        let isReturningHost := room.hostToken = some token
        let wasInRoom := room.recentlyLeft.find? (fun p => decide (p.1.token = some token))
        if ¬ isReturningHost ∧ wasInRoom = none then
          (st, JoinResult.error "Partie en cours — impossible de rejoindre")
        else
          let player : Player :=
            { token := some token, socketId := socketId,
              name := match wasInRoom with
                | some r => r.1.name
                | none => some (jsOrStr playerData.name "Joueur"),
              avatar := match wasInRoom with
                | some r => r.1.avatar
                | none => jsOrStr playerData.avatar "",
              isHost := isReturningHost,
              isReady := true,
              lives := match wasInRoom with
                | some r => r.1.lives
                | none => room.settings.startingLives,
              wordsFound := match wasInRoom with
                | some r => r.1.wordsFound
                | none => 0,
              isAlive := match wasInRoom with
                | some r => r.1.isAlive
                | none => true,
              disconnected := false }
          let room1 :=
            { room with
              hostToken := if isReturningHost then some token else room.hostToken
              players := room.players ++ [player] }
          let st1 :=
            { st with
              rooms := mset st.rooms roomId room1
              sessions := sessionRejoin st.sessions token socketId roomId }
          (st1, JoinResult.success true)
      else
        let player : Player :=
          { token := some token, socketId := socketId,
            name := playerData.name,
            avatar := jsOrStr playerData.avatar "",
            isHost := false, isReady := false,
            lives := room.settings.startingLives, wordsFound := 0,
            isAlive := true, disconnected := false }
        let room1 := { room with players := room.players ++ [player] }
        let sessions1 :=
          match mget st.sessions token with
          | some s => mset st.sessions token { s with roomId := some roomId }
          | none => st.sessions
        let st1 :=
          { st with
            rooms := mset st.rooms roomId room1
            sessions := sessions1 }
        (st1, JoinResult.success false)

/-- Result of `leaveRoom` when a room was found. -/
inductive LeaveResult where
  | roomDeleted (roomId : String) : LeaveResult
  | left (room : Room) (newHost : Option (Option String)) : LeaveResult
deriving DecidableEq, Repr

/-- Source `leaveRoom`: snapshot a leaver from a playing room into
`_recentlyLeft` (its 60s purge is a timer callback, outside this model),
remove the player, delete the room when it empties, else promote
`players[0]` when the host left.  `now` stands for `Date.now()`. -/
def leaveRoom (st : RMState) (token : String) (now : Nat) :
    RMState × Option LeaveResult :=
  match mget st.sessions token with
  | none => (st, none)
  | some session =>
    match session.roomId with
    | none => (st, none)
    | some rid =>
      match mget st.rooms rid with
      | none =>
          let sessions1 := mset st.sessions token { session with roomId := none }
          ({ st with sessions := sessions1 }, none)
      | some room =>
        let wasHost := room.hostToken = some token
        let leavingPlayer := room.players.find? (fun p => decide (p.token = some token))
        let recentlyLeft1 :=
          match leavingPlayer with
          | some lp =>
              if room.gameState = GState.playing then room.recentlyLeft ++ [(lp, now)]
              else room.recentlyLeft
          | none => room.recentlyLeft
        let players1 := room.players.filter (fun p => !(decide (p.token = some token)))
        let sessions1 := mset st.sessions token { session with roomId := none }
        match players1 with
        | [] =>
            ({ st with rooms := mdel st.rooms room.id, sessions := sessions1 },
              some (LeaveResult.roomDeleted room.id))
        | next :: rest =>
            if wasHost then
              let room1 :=
                { room with
                  players := { next with isHost := true } :: rest
                  recentlyLeft := recentlyLeft1
                  hostToken := next.token
                  host := next.name
                  hostAvatar := next.avatar }
              ({ st with rooms := mset st.rooms room.id room1, sessions := sessions1 },
                some (LeaveResult.left room1 (some next.name)))
            else
              let room1 :=
                { room with
                  players := next :: rest
                  recentlyLeft := recentlyLeft1 }
              ({ st with rooms := mset st.rooms room.id room1, sessions := sessions1 },
                some (LeaveResult.left room1 none))

/-- The per-player reset applied by `endGame` before the next lobby. -/
def resetPlayer (sl : Nat) (p : Player) : Player :=
  { p with lives := sl, wordsFound := 0, isAlive := true, isReady := false }

/-- Body of the `endGame` spectator-promotion loop: skip a spectator whose
token is already among the accumulated players, else append a fresh player
(no `maxPlayers` check). -/
def promoteSpec (startingLives : Nat) (acc : List Player × List Player)
    (spec : Spectator) : List Player × List Player :=
  if (acc.1.find? (fun p => decide (p.token = some spec.token))).isSome then acc
  else
    let np : Player :=
      { token := some spec.token, socketId := spec.socketId,
        name := spec.name, avatar := jsOrStr spec.avatar "",
        isHost := false, isReady := false,
        lives := startingLives, wordsFound := 0,
        isAlive := true, disconnected := false }
    (acc.1 ++ [np], acc.2 ++ [np])

/-- Source `endGame`: stop the timer, compute the winner (first alive, else
`players[0]`), promote every pending spectator whose token is not already
among the players — with NO `maxPlayers` check — empty `pendingSpectators`,
return to lobby and reset every player (the JS promoted-player object carries
no `isReady`/`disconnected` fields; `undefined` is embedded as `false`, and
the closing reset assigns `isReady = false` anyway). -/
def endGame (st : RMState) (roomId : String) :
    Option (RMState × Room × Option Player × List Player) :=
  match mget st.rooms roomId with
  | none => none
  | some room =>
    let room1 :=
      { room with
        gameState := GState.finished
        game := { room.game with timer := false } }
    let alive := room1.players.filter (fun p => p.isAlive && decide (p.lives > 0))
    let winner :=
      match alive with
      | a :: _ => some a
      | [] => room1.players.head?
    let pr := room1.pendingSpectators.foldl
      (promoteSpec room1.settings.startingLives) (room1.players, [])
    let sessions1 := pr.2.foldl
      (fun ss np =>
        match np.token with
        | some t =>
            match mget ss t with
            | some s => mset ss t { s with roomId := some roomId }
            | none => ss
        | none => ss)
      st.sessions
    let players3 := pr.1.map (resetPlayer room1.settings.startingLives)
    let room2 :=
      { room1 with
        gameState := GState.lobby
        players := players3
        pendingSpectators := [] }
    some ({ st with rooms := mset st.rooms roomId room2, sessions := sessions1 },
      room2, winner, pr.2)

/-- Source `startGame`: enter the playing state and reset per-game fields. -/
def startGame (st : RMState) (roomId : String) (now : Nat) :
    RMState × Option Room :=
  match mget st.rooms roomId with
  | none => (st, none)
  | some room =>
      let room1 :=
        { room with
          gameState := GState.playing
          game :=
            { room.game with
              startTime := some now
              roundNumber := 0
              currentPlayerIndex := 0 }
          players := room.players.map (fun p =>
            { p with
              lives := room.settings.startingLives
              wordsFound := 0
              isAlive := true }) }
      ({ st with rooms := mset st.rooms roomId room1 }, some room1)

/-- Source `markDisconnected`. -/
def markDisconnected (st : RMState) (token : String) : RMState × Option Room :=
  match mget st.sessions token with
  | none => (st, none)
  | some session =>
    match session.roomId with
    | none => (st, none)
    | some rid =>
      match mget st.rooms rid with
      | none => (st, none)
      | some room =>
          let room1 := { room with
            players := updateFirstPlayer room.players (some token)
              (fun p => { p with disconnected := true }) }
          ({ st with rooms := mset st.rooms rid room1 }, some room1)

/-- Source `markReconnected`. -/
def markReconnected (st : RMState) (token : String) : RMState × Option Room :=
  match mget st.sessions token with
  | none => (st, none)
  | some session =>
    match session.roomId with
    | none => (st, none)
    | some rid =>
      match mget st.rooms rid with
      | none => (st, none)
      | some room =>
          let room1 := { room with
            players := updateFirstPlayer room.players (some token)
              (fun p => { p with disconnected := false }) }
          ({ st with rooms := mset st.rooms rid room1 }, some room1)

/-- Source `isHost`: `room && room.hostToken === token`. -/
def rmIsHost (st : RMState) (roomId : String) (token : Option String) : Bool :=
  match mget st.rooms roomId with
  | some r => decide (r.hostToken = token)
  | none => false

/-- Source `getRoom`. -/
def getRoom (st : RMState) (roomId : String) : Option Room :=
  mget st.rooms roomId

-- ---------------------------------------------------------------------------
-- Host invariant (C7)
-- ---------------------------------------------------------------------------

/-- Host well-formedness of one player list against a host token: non-empty,
tokens present and pairwise distinct, exactly one host flag, and every host
flag on the player holding the room's host token. -/
def PlayersOk (hostTok : Option String) (ps : List Player) : Prop :=
  ps ≠ [] ∧
  (ps.map Player.token).Nodup ∧
  (∀ p ∈ ps, p.token.isSome) ∧
  ps.countP (fun p => p.isHost) = 1 ∧
  (∀ p ∈ ps, p.isHost → p.token = hostTok)

/-- Host well-formedness of a room. -/
def RoomOk (room : Room) : Prop := PlayersOk room.hostToken room.players

/-- Host well-formedness of every room in the manager. -/
def StateOk (st : RMState) : Prop := ∀ pr ∈ st.rooms, RoomOk pr.2

instance (hostTok : Option String) (ps : List Player) : Decidable (PlayersOk hostTok ps) := by
  unfold PlayersOk
  infer_instance

instance (room : Room) : Decidable (RoomOk room) := by
  unfold RoomOk
  infer_instance

instance (st : RMState) : Decidable (StateOk st) := by
  unfold StateOk
  exact List.decidableBAll _ st.rooms

/-- One RoomManager operation (the membership mutations of the claim plus the
flag/session operations, which leave `rooms` players untouched). -/
inductive RMStep : RMState → RMState → Prop where
  | register (st : RMState) (tok sid : String) :
      RMStep st (registerSocket st tok sid).1
  | unregister (st : RMState) (sid : String) :
      RMStep st (unregisterSocket st sid).1
  | create (st : RMState) (data : RoomData) (hostSid hostTok genId : String) (now : Nat) :
      RMStep st (createRoom st data hostSid hostTok genId now).1
  | join (st : RMState) (roomId : String) (pd : PlayerData) (sid tok : String) :
      RMStep st (joinRoom st roomId pd sid tok).1
  | leave (st : RMState) (tok : String) (now : Nat) :
      RMStep st (leaveRoom st tok now).1
  | endG (st : RMState) (roomId : String) :
      RMStep st (match endGame st roomId with
        | some res => res.1
        | none => st)
  | startG (st : RMState) (roomId : String) (now : Nat) :
      RMStep st (startGame st roomId now).1
  | markDis (st : RMState) (tok : String) :
      RMStep st (markDisconnected st tok).1
  | markRec (st : RMState) (tok : String) :
      RMStep st (markReconnected st tok).1

theorem mem_mset_elim {K V : Type} [DecidableEq K] (m : List (K × V)) (k : K) (v : V)
    (pr : K × V) (h : pr ∈ mset m k v) : pr = (k, v) ∨ pr ∈ m := by
  induction m with
  | nil => simpa [mset] using h
  | cons q rest ih =>
      obtain ⟨k₀, v₀⟩ := q
      by_cases hk : k₀ = k
      · subst hk
        simp only [mset, if_pos rfl] at h
        rcases List.mem_cons.mp h with h1 | h1
        · exact Or.inl h1
        · exact Or.inr (List.mem_cons_of_mem _ h1)
      · simp only [mset, if_neg hk] at h
        rcases List.mem_cons.mp h with h1 | h1
        · exact Or.inr (h1 ▸ List.mem_cons_self _ _)
        · rcases ih h1 with h2 | h2
          · exact Or.inl h2
          · exact Or.inr (List.mem_cons_of_mem _ h2)

theorem mem_mdel_elim {K V : Type} [DecidableEq K] (m : List (K × V)) (k : K)
    (pr : K × V) (h : pr ∈ mdel m k) : pr ∈ m :=
  (List.mem_filter.mp h).1

/-- Mapping a per-player rewrite that fixes a projection fixes the projected
list. -/
theorem map_map_proj {α β : Type} (l : List α) (f : α → α) (g : α → β)
    (h : ∀ x, g (f x) = g x) : (l.map f).map g = l.map g := by
  induction l with
  | nil => rfl
  | cons a t ih => simp [ih, h]

theorem updateFirstPlayer_map {β : Type} (ps : List Player) (tok : Option String)
    (f : Player → Player) (g : Player → β) (h : ∀ p, g (f p) = g p) :
    (updateFirstPlayer ps tok f).map g = ps.map g := by
  induction ps with
  | nil => rfl
  | cons p rest ih =>
      by_cases hp : p.token = tok
      · simp [updateFirstPlayer, hp, h]
      · simp [updateFirstPlayer, hp, ih]

/-- PlayersOk only depends on the `(token, isHost)` view of the players. -/
theorem PlayersOk_of_view (hostTok : Option String) (ps ps' : List Player)
    (hv : ps'.map (fun p => (p.token, p.isHost)) = ps.map (fun p => (p.token, p.isHost)))
    (h : PlayersOk hostTok ps) : PlayersOk hostTok ps' := by
  obtain ⟨hne, hnd, hsome, hcount, hhost⟩ := h
  have hlen : ps'.length = ps.length := by
    have := congrArg List.length hv
    simpa using this
  have htok : ps'.map Player.token = ps.map Player.token := by
    have := congrArg (List.map Prod.fst) hv
    simpa [List.map_map, Function.comp] using this
  have hmemview : ∀ p ∈ ps', ∃ q ∈ ps, q.token = p.token ∧ q.isHost = p.isHost := by
    intro p hp
    have hx : (p.token, p.isHost) ∈ ps.map (fun p => (p.token, p.isHost)) := by
      rw [← hv]
      exact List.mem_map_of_mem _ hp
    obtain ⟨q, hq, hqe⟩ := List.mem_map.mp hx
    exact ⟨q, hq, congrArg Prod.fst hqe, congrArg Prod.snd hqe⟩
  refine ⟨?_, ?_, ?_, ?_, ?_⟩
  · intro he
    rw [he] at hlen
    exact hne (List.eq_nil_of_length_eq_zero hlen.symm)
  · rw [htok]; exact hnd
  · intro p hp
    obtain ⟨q, hq, hqt, _⟩ := hmemview p hp
    rw [← hqt]
    exact hsome q hq
  · have h1 : ps'.countP (fun p => p.isHost)
        = (ps'.map (fun p => (p.token, p.isHost))).countP (fun x => x.2) := by
      rw [List.countP_map]; rfl
    have h2 : ps.countP (fun p => p.isHost)
        = (ps.map (fun p => (p.token, p.isHost))).countP (fun x => x.2) := by
      rw [List.countP_map]; rfl
    rw [h1, hv, ← h2]; exact hcount
  · intro p hp hph
    obtain ⟨q, hq, hqt, hqh⟩ := hmemview p hp
    rw [← hqt]
    exact hhost q hq (by rw [hqh]; exact hph)

theorem mget_mem {K V : Type} [DecidableEq K] (m : List (K × V)) (k : K) (v : V)
    (h : mget m k = some v) : (k, v) ∈ m := by
  unfold mget at h
  cases hf : m.find? (fun p => p.1 = k) with
  | none => rw [hf] at h; cases h
  | some pr =>
      rw [hf] at h
      have hmem := List.mem_of_find?_eq_some hf
      have hkey : pr.1 = k := by
        have := List.find?_some hf
        simpa using this
      have hval : pr.2 = v := by simpa using h
      have : pr = (k, v) := Prod.ext hkey hval
      rw [← this]
      exact hmem

theorem rooms_registerSocket (st : RMState) (t s : String) :
    ((registerSocket st t s).1).rooms = st.rooms := by
  unfold registerSocket
  cases h : mget st.sessions t <;> simp

theorem rooms_unregisterSocket (st : RMState) (s : String) :
    ((unregisterSocket st s).1).rooms = st.rooms := by
  unfold unregisterSocket
  cases h1 : mget st.sockets s with
  | none => rfl
  | some tok =>
      simp only
      cases h2 : mget st.sessions tok with
      | none => rfl
      | some session =>
          simp only
          by_cases h3 : session.socketId = some s
          · rw [if_pos h3]
          · rw [if_neg h3]

theorem stateOk_registerSocket (st : RMState) (t s : String) (h : StateOk st) :
    StateOk (registerSocket st t s).1 := by
  intro pr hpr
  rw [rooms_registerSocket] at hpr
  exact h pr hpr

theorem stateOk_unregisterSocket (st : RMState) (s : String) (h : StateOk st) :
    StateOk (unregisterSocket st s).1 := by
  intro pr hpr
  rw [rooms_unregisterSocket] at hpr
  exact h pr hpr

theorem stateOk_createRoom (st : RMState) (data : RoomData)
    (hostSid hostTok genId : String) (now : Nat) (h : StateOk st) :
    StateOk (createRoom st data hostSid hostTok genId now).1 := by
  intro pr hpr
  unfold createRoom at hpr
  simp only at hpr
  rcases mem_mset_elim _ _ _ _ hpr with he | hm
  · subst he
    refine ⟨by simp, by simp, ?_, ?_, ?_⟩
    · intro p hp
      simp only [List.mem_singleton] at hp
      subst hp
      rfl
    · simp [List.countP_cons]
    · intro p hp hph
      simp only [List.mem_singleton] at hp
      subst hp
      rfl
  · exact h pr hm

theorem stateOk_startGame (st : RMState) (roomId : String) (now : Nat)
    (h : StateOk st) : StateOk (startGame st roomId now).1 := by
  intro pr hpr
  unfold startGame at hpr
  cases hr : mget st.rooms roomId with
  | none =>
      rw [hr] at hpr
      exact h pr hpr
  | some room =>
      rw [hr] at hpr
      simp only at hpr
      rcases mem_mset_elim _ _ _ _ hpr with he | hm
      · subst he
        have hro : RoomOk room := h (roomId, room) (mget_mem _ _ _ hr)
        refine PlayersOk_of_view room.hostToken room.players _ ?_ hro
        exact map_map_proj _ _ _ (fun p => rfl)
      · exact h pr hm

theorem stateOk_markDisconnected (st : RMState) (tok : String) (h : StateOk st) :
    StateOk (markDisconnected st tok).1 := by
  intro pr hpr
  unfold markDisconnected at hpr
  cases h1 : mget st.sessions tok with
  | none => rw [h1] at hpr; exact h pr hpr
  | some session =>
      rw [h1] at hpr
      simp only at hpr
      cases h2 : session.roomId with
      | none => rw [h2] at hpr; simp only at hpr; exact h pr hpr
      | some rid =>
          rw [h2] at hpr
          simp only at hpr
          cases h3 : mget st.rooms rid with
          | none => rw [h3] at hpr; simp only at hpr; exact h pr hpr
          | some room =>
              rw [h3] at hpr
              simp only at hpr
              rcases mem_mset_elim _ _ _ _ hpr with he | hm
              · subst he
                have hro : RoomOk room := h (rid, room) (mget_mem _ _ _ h3)
                refine PlayersOk_of_view room.hostToken room.players _ ?_ hro
                exact updateFirstPlayer_map _ _ _ _ (fun p => rfl)
              · exact h pr hm

theorem stateOk_markReconnected (st : RMState) (tok : String) (h : StateOk st) :
    StateOk (markReconnected st tok).1 := by
  intro pr hpr
  unfold markReconnected at hpr
  cases h1 : mget st.sessions tok with
  | none => rw [h1] at hpr; exact h pr hpr
  | some session =>
      rw [h1] at hpr
      simp only at hpr
      cases h2 : session.roomId with
      | none => rw [h2] at hpr; simp only at hpr; exact h pr hpr
      | some rid =>
          rw [h2] at hpr
          simp only at hpr
          cases h3 : mget st.rooms rid with
          | none => rw [h3] at hpr; simp only at hpr; exact h pr hpr
          | some room =>
              rw [h3] at hpr
              simp only at hpr
              rcases mem_mset_elim _ _ _ _ hpr with he | hm
              · subst he
                have hro : RoomOk room := h (rid, room) (mget_mem _ _ _ h3)
                refine PlayersOk_of_view room.hostToken room.players _ ?_ hro
                exact updateFirstPlayer_map _ _ _ _ (fun p => rfl)
              · exact h pr hm

theorem PlayersOk_append (hostTok : Option String) (ps : List Player) (p : Player)
    (h : PlayersOk hostTok ps)
    (hnot : ∀ q ∈ ps, ¬ (q.token = p.token))
    (hsome : p.token.isSome)
    (hhost : p.isHost = false) :
    PlayersOk hostTok (ps ++ [p]) := by
  obtain ⟨hne, hnd, hsm, hcount, hh⟩ := h
  refine ⟨by simp, ?_, ?_, ?_, ?_⟩
  · rw [List.map_append, List.nodup_append]
    refine ⟨hnd, by simp, ?_⟩
    intro x hx hxp
    obtain ⟨q, hq, hqx⟩ := List.mem_map.mp hx
    simp only [List.map_cons, List.map_nil, List.mem_singleton] at hxp
    exact hnot q hq (by rw [hqx, hxp])
  · intro q hq
    rcases List.mem_append.mp hq with h1 | h1
    · exact hsm q h1
    · simp only [List.mem_singleton] at h1
      subst h1
      exact hsome
  · rw [List.countP_append, hcount]
    simp [List.countP_cons, hhost]
  · intro q hq hqh
    rcases List.mem_append.mp hq with h1 | h1
    · exact hh q h1 hqh
    · simp only [List.mem_singleton] at h1
      subst h1
      rw [hhost] at hqh
      cases hqh

theorem PlayersOk_promoteSpec (hostTok : Option String) (sl : Nat)
    (acc : List Player × List Player) (spec : Spectator)
    (h : PlayersOk hostTok acc.1) :
    PlayersOk hostTok (promoteSpec sl acc spec).1 := by
  unfold promoteSpec
  cases hf : (acc.1.find? (fun p => decide (p.token = some spec.token))).isSome
  · simp only [Bool.false_eq_true, if_false]
    have hnone : acc.1.find? (fun p => decide (p.token = some spec.token)) = none := by
      cases hx : acc.1.find? (fun p => decide (p.token = some spec.token))
      · rfl
      · rw [hx] at hf; cases hf
    have hnot : ∀ q ∈ acc.1, ¬ (q.token = some spec.token) := by
      intro q hq
      have := List.find?_eq_none.mp hnone q hq
      simpa using this
    exact PlayersOk_append hostTok acc.1 _ h hnot rfl rfl
  · simp only [if_true]
    exact h

theorem PlayersOk_promote_fold (hostTok : Option String) (sl : Nat)
    (specs : List Spectator) :
    ∀ acc : List Player × List Player, PlayersOk hostTok acc.1 →
      PlayersOk hostTok ((specs.foldl (promoteSpec sl) acc).1) := by
  induction specs with
  | nil => intro acc h; exact h
  | cons spec rest ih =>
      intro acc h
      simp only [List.foldl_cons]
      exact ih _ (PlayersOk_promoteSpec hostTok sl acc spec h)

theorem stateOk_endGame (st : RMState) (roomId : String) (h : StateOk st) :
    StateOk (match endGame st roomId with
      | some res => res.1
      | none => st) := by
  cases hr : endGame st roomId with
  | none => exact h
  | some res =>
      simp only
      unfold endGame at hr
      cases hroom : mget st.rooms roomId with
      | none => rw [hroom] at hr; cases hr
      | some room =>
          rw [hroom] at hr
          simp only at hr
          have hres := Option.some.inj hr
          subst hres
          intro pr hpr
          simp only at hpr
          rcases mem_mset_elim _ _ _ _ hpr with he | hm
          · subst he
            have hro : RoomOk room := h (roomId, room) (mget_mem _ _ _ hroom)
            have hfold := PlayersOk_promote_fold room.hostToken
              room.settings.startingLives room.pendingSpectators
              (room.players, []) hro
            refine PlayersOk_of_view room.hostToken _ _ ?_ hfold
            exact map_map_proj _ _ _ (fun p => rfl)
          · exact h pr hm

theorem stateOk_joinRoom (st : RMState) (roomId : String) (pd : PlayerData)
    (sid tok : String) (h : StateOk st) :
    StateOk (joinRoom st roomId pd sid tok).1 := by
  intro pr hpr
  unfold joinRoom at hpr
  cases hroom : mget st.rooms roomId with
  | none => rw [hroom] at hpr; simp only at hpr; exact h pr hpr
  | some room =>
      rw [hroom] at hpr
      simp only at hpr
      have hro : RoomOk room := h (roomId, room) (mget_mem _ _ _ hroom)
      cases hfind : room.players.find? (fun p => decide (p.token = some tok)) with
      | some q =>
          rw [hfind] at hpr
          simp only at hpr
          rcases mem_mset_elim _ _ _ _ hpr with he | hm
          · subst he
            refine PlayersOk_of_view room.hostToken _ _ ?_ hro
            exact updateFirstPlayer_map _ _ _ _ (fun p => rfl)
          · exact h pr hm
      | none =>
          rw [hfind] at hpr
          simp only at hpr
          have hnotok : ∀ p ∈ room.players, ¬ (p.token = some tok) := by
            intro p hp
            have := List.find?_eq_none.mp hfind p hp
            simpa using this
          by_cases hfull : room.players.length ≥ room.settings.maxPlayers
          · rw [if_pos hfull] at hpr
            exact h pr hpr
          · rw [if_neg hfull] at hpr
            by_cases hplay : room.gameState = GState.playing
            · rw [if_pos hplay] at hpr
              have hIR : ¬ (room.hostToken = some tok) := by
                intro hEq
                obtain ⟨hne, hnd, hsome, hcount, hhost⟩ := hro
                have hpos : 0 < room.players.countP (fun p => p.isHost) := by
                  rw [hcount]; exact Nat.zero_lt_one
                obtain ⟨ph, hph, hphh⟩ := List.countP_pos_iff.mp hpos
                exact hnotok ph hph ((hhost ph hph hphh).trans hEq)
              by_cases hcond : ¬ (room.hostToken = some tok) ∧
                  room.recentlyLeft.find? (fun p => decide (p.1.token = some tok)) = none
              · rw [if_pos hcond] at hpr
                exact h pr hpr
              · rw [if_neg hcond] at hpr
                simp only at hpr
                rcases mem_mset_elim _ _ _ _ hpr with he | hm
                · subst he
                  unfold RoomOk
                  simp only
                  rw [if_neg hIR]
                  refine PlayersOk_append room.hostToken room.players _ hro
                    (fun q hq => hnotok q hq) rfl ?_
                  exact decide_eq_false hIR
                · exact h pr hm
            · rw [if_neg hplay] at hpr
              simp only at hpr
              rcases mem_mset_elim _ _ _ _ hpr with he | hm
              · subst he
                exact PlayersOk_append room.hostToken room.players _ hro
                  (fun q hq => hnotok q hq) rfl rfl
              · exact h pr hm

theorem stateOk_leaveRoom (st : RMState) (tok : String) (now : Nat) (h : StateOk st) :
    StateOk (leaveRoom st tok now).1 := by
  intro pr hpr
  unfold leaveRoom at hpr
  cases h1 : mget st.sessions tok with
  | none => rw [h1] at hpr; exact h pr hpr
  | some session =>
      rw [h1] at hpr
      simp only at hpr
      cases h2 : session.roomId with
      | none => rw [h2] at hpr; simp only at hpr; exact h pr hpr
      | some rid =>
          rw [h2] at hpr
          simp only at hpr
          cases h3 : mget st.rooms rid with
          | none => rw [h3] at hpr; simp only at hpr; exact h pr hpr
          | some room =>
              rw [h3] at hpr
              simp only at hpr
              have hro : RoomOk room := h (rid, room) (mget_mem _ _ _ h3)
              obtain ⟨hne, hnd, hsm, hcount, hh⟩ := hro
              have hsubl : (room.players.filter
                  (fun p => !(decide (p.token = some tok)))).Sublist room.players :=
                List.filter_sublist _
              cases hps : room.players.filter (fun p => !(decide (p.token = some tok))) with
              | nil =>
                  rw [hps] at hpr
                  simp only at hpr
                  exact h pr (mem_mdel_elim _ _ _ hpr)
              | cons next rest =>
                  rw [hps] at hpr
                  simp only at hpr
                  rw [hps] at hsubl
                  have hmem1 : ∀ p ∈ next :: rest, p ∈ room.players := fun p hp =>
                    List.Sublist.mem hp hsubl
                  have hkeep : ∀ p ∈ next :: rest, ¬ (p.token = some tok) := by
                    intro p hp
                    have hpf : p ∈ room.players.filter
                        (fun p => !(decide (p.token = some tok))) := by
                      rw [hps]; exact hp
                    have := (List.mem_filter.mp hpf).2
                    simpa using this
                  have hnd1 : ((next :: rest).map Player.token).Nodup :=
                    List.Nodup.sublist (List.Sublist.map Player.token hsubl) hnd
                  have hsm1 : ∀ p ∈ next :: rest, p.token.isSome := fun p hp =>
                    hsm p (hmem1 p hp)
                  by_cases hwh : room.hostToken = some tok
                  · -- the host left: players[0] is promoted
                    have hnohost : ∀ p ∈ next :: rest, ¬ (p.isHost = true) := by
                      intro p hp hph
                      exact hkeep p hp ((hh p (hmem1 p hp) hph).trans hwh)
                    have hcz : (next :: rest).countP (fun p => p.isHost) = 0 :=
                      List.countP_eq_zero.mpr hnohost
                    rw [if_pos hwh] at hpr
                    simp only at hpr
                    rcases mem_mset_elim _ _ _ _ hpr with he | hm
                    · subst he
                      have hrest0 : rest.countP (fun p => p.isHost) = 0 := by
                        rw [List.countP_cons] at hcz
                        omega
                      refine ⟨by simp, ?_, ?_, ?_, ?_⟩
                      · simpa using hnd1
                      · intro p hp
                        rcases List.mem_cons.mp hp with h1' | h1'
                        · subst h1'
                          exact hsm1 next (List.mem_cons_self _ _)
                        · exact hsm1 p (List.mem_cons_of_mem _ h1')
                      · rw [List.countP_cons]
                        simp [hrest0]
                      · intro p hp hph
                        rcases List.mem_cons.mp hp with h1' | h1'
                        · subst h1'; rfl
                        · exact absurd hph (List.countP_eq_zero.mp hrest0 p h1')
                    · exact h pr hm
                  · -- a non-host left: the host stays and the host count is kept
                    rw [if_neg hwh] at hpr
                    simp only at hpr
                    rcases mem_mset_elim _ _ _ _ hpr with he | hm
                    · subst he
                      refine ⟨by simp, hnd1, hsm1, ?_, ?_⟩
                      · have hstep : room.players.countP
                            (fun p => p.isHost && !(decide (p.token = some tok)))
                              = room.players.countP (fun p => p.isHost) := by
                          refine List.countP_congr ?_
                          intro p hp
                          constructor
                          · intro hb
                            exact Bool.and_elim_left hb
                          · intro hb
                            have hk : ¬ (p.token = some tok) := by
                              intro hteq
                              exact hwh ((hh p hp hb).symm.trans hteq)
                            simp [hb, hk]
                        rw [← hps, List.countP_filter, hstep]
                        exact hcount
                      · intro p hp hph
                        exact hh p (hmem1 p hp) hph
                    · exact h pr hm

theorem promote_fold_mono (sl : Nat) (specs : List Spectator) :
    ∀ acc : List Player × List Player,
      ∃ extra, (specs.foldl (promoteSpec sl) acc).1 = acc.1 ++ extra := by
  induction specs with
  | nil => intro acc; exact ⟨[], by simp⟩
  | cons s0 rest ih =>
      intro acc
      simp only [List.foldl_cons]
      obtain ⟨extra, hex⟩ := ih (promoteSpec sl acc s0)
      unfold promoteSpec at hex ⊢
      cases hf : (acc.1.find? (fun p => decide (p.token = some s0.token))).isSome
      · rw [hf] at hex
        simp only [Bool.false_eq_true, if_false] at hex ⊢
        exact ⟨_, by rw [hex, List.append_assoc]⟩
      · rw [hf] at hex
        simp only [if_true] at hex ⊢
        exact ⟨extra, hex⟩

theorem promote_fold_len (sl : Nat) (specs : List Spectator) :
    ∀ acc : List Player × List Player,
      (specs.foldl (promoteSpec sl) acc).1.length + acc.2.length
        = acc.1.length + (specs.foldl (promoteSpec sl) acc).2.length := by
  induction specs with
  | nil => intro acc; simp
  | cons s0 rest ih =>
      intro acc
      simp only [List.foldl_cons]
      have h0 := ih (promoteSpec sl acc s0)
      unfold promoteSpec at h0 ⊢
      cases hf : (acc.1.find? (fun p => decide (p.token = some s0.token))).isSome
      · rw [hf] at h0
        simp only [Bool.false_eq_true, if_false] at h0 ⊢
        simp only [List.length_append, List.length_singleton] at h0 ⊢
        omega
      · rw [hf] at h0
        simp only [if_true] at h0 ⊢
        exact h0

theorem promote_fold_members (sl : Nat) (specs : List Spectator) :
    ∀ acc : List Player × List Player, ∀ p ∈ (specs.foldl (promoteSpec sl) acc).1,
      p ∈ acc.1 ∨ ∃ spec ∈ specs, p.token = some spec.token ∧ p.lives = sl ∧
        p.wordsFound = 0 ∧ p.isAlive = true ∧ p.isReady = false ∧ p.isHost = false := by
  induction specs with
  | nil => intro acc p hp; exact Or.inl hp
  | cons s0 rest ih =>
      intro acc p hp
      simp only [List.foldl_cons] at hp
      rcases ih (promoteSpec sl acc s0) p hp with h1 | h1
      · unfold promoteSpec at h1
        cases hf : (acc.1.find? (fun p => decide (p.token = some s0.token))).isSome
        · rw [hf] at h1
          simp only [Bool.false_eq_true, if_false] at h1
          rcases List.mem_append.mp h1 with h2 | h2
          · exact Or.inl h2
          · simp only [List.mem_singleton] at h2
            subst h2
            exact Or.inr ⟨s0, List.mem_cons_self _ _, rfl, rfl, rfl, rfl, rfl, rfl⟩
        · rw [hf] at h1
          simp only [if_true] at h1
          exact Or.inl h1
      · obtain ⟨spec, hsm, hrest⟩ := h1
        exact Or.inr ⟨spec, List.mem_cons_of_mem _ hsm, hrest⟩

theorem promote_fold_covers (sl : Nat) (specs : List Spectator) :
    ∀ acc : List Player × List Player, ∀ spec ∈ specs,
      ∃ p ∈ (specs.foldl (promoteSpec sl) acc).1, p.token = some spec.token := by
  induction specs with
  | nil => intro acc spec h; cases h
  | cons s0 rest ih =>
      intro acc spec hmem
      rcases List.mem_cons.mp hmem with he | hrest
      · subst he
        have hstep : ∃ p ∈ (promoteSpec sl acc spec).1, p.token = some spec.token := by
          unfold promoteSpec
          cases hf : acc.1.find? (fun p => decide (p.token = some spec.token)) with
          | some q =>
              refine ⟨q, ?_, ?_⟩
              · simp only [Option.isSome_some, if_true]
                exact List.mem_of_find?_eq_some hf
              · have := List.find?_some hf
                simpa using this
          | none =>
              simp only [Option.isSome_none, Bool.false_eq_true, if_false]
              exact ⟨_, List.mem_append_right _ (List.mem_singleton_self _), rfl⟩
        obtain ⟨p, hp, hpt⟩ := hstep
        obtain ⟨extra, hex⟩ := promote_fold_mono sl rest (promoteSpec sl acc spec)
        refine ⟨p, ?_, hpt⟩
        rw [List.foldl_cons, hex]
        exact List.mem_append_left _ hp
      · rw [List.foldl_cons]
        exact ih _ spec hrest

/-- Spectator of the C10 capacity instance. -/
def c10Spec : Spectator :=
  { token := "S", socketId := "s2", name := some "Spec", avatar := none }

/-- Host player of the C10 capacity instance. -/
def c10Host : Player :=
  { token := some "T", socketId := "s1", name := some "H", avatar := "",
    isHost := true, isReady := true, lives := 2, wordsFound := 0,
    isAlive := true, disconnected := false }

/-- Game data of the C10 capacity instance. -/
def c10Game : GameData :=
  { currentSyllable := none, currentPlayerIndex := 0, roundNumber := 3,
    startTime := some 0, timer := true, timerEndTime := none, timerTotal := none,
    paused := false, pausedRemaining := none, pausedAt := none,
    usedSyllables := [], serverControlledUntil := 0 }

/-- Room of the C10 capacity instance: one player, `maxPlayers = 1`, one
pending spectator with a fresh token. -/
def c10Room : Room :=
  { id := "r", name := "n", host := some "H", hostAvatar := "",
    hostToken := some "T",
    pendingSpectators := [c10Spec],
    players := [c10Host],
    gameState := GState.playing,
    settings := { scenario := none, wpp := none, maxPlayers := 1,
                  startingLives := 2, extraTurnSeconds := 0 },
    game := c10Game,
    createdAt := 0, recentlyLeft := [], displayPlayerCount := none }

/-- Manager state of the C10 capacity instance. -/
def c10St : RMState := { rooms := [("r", c10Room)], sessions := [], sockets := [] }

/-- C10: `endGame` empties `pendingSpectators` and appends every pending
spectator whose token is not already among the (evolving) players as a fresh
player (startingLives, wordsFound = 0, isAlive, isReady = false,
isHost = false), with no `settings.maxPlayers` check — concretely, the player
count can end up above `maxPlayers`. -/
theorem c10_endGame_spectators (st : RMState) (roomId : String) (room : Room)
    (hroom : mget st.rooms roomId = some room) :
    (∃ st' room2 winner nps,
      endGame st roomId = some (st', room2, winner, nps) ∧
      room2.pendingSpectators = [] ∧
      room2.players.length = room.players.length + nps.length ∧
      (∀ p ∈ room2.players,
        (∃ q ∈ room.players, p = resetPlayer room.settings.startingLives q) ∨
        (∃ spec ∈ room.pendingSpectators, p.token = some spec.token ∧
          p.lives = room.settings.startingLives ∧ p.wordsFound = 0 ∧
          p.isAlive = true ∧ p.isReady = false ∧ p.isHost = false)) ∧
      (∀ spec ∈ room.pendingSpectators,
        ∃ p ∈ room2.players, p.token = some spec.token)) ∧
    (∃ res, endGame c10St "r" = some res ∧
      res.2.1.players.length > res.2.1.settings.maxPlayers) := by
  constructor
  · have hfold := promote_fold_len room.settings.startingLives
      room.pendingSpectators (room.players, [])
    cases hEG : endGame st roomId with
    | none =>
        exfalso
        unfold endGame at hEG
        rw [hroom] at hEG
        simp only at hEG
        exact Option.noConfusion hEG
    | some res =>
        obtain ⟨st', res1⟩ := res
        obtain ⟨room2, res2⟩ := res1
        obtain ⟨winner, nps⟩ := res2
        unfold endGame at hEG
        rw [hroom] at hEG
        simp only [Option.some.injEq, Prod.mk.injEq] at hEG
        obtain ⟨h1, h2, h3, h4⟩ := hEG
        subst h1
        subst h2
        subst h3
        subst h4
        refine ⟨_, _, _, _, rfl, rfl, ?_, ?_, ?_⟩
        · simp only [List.length_map, List.length_nil] at hfold ⊢
          omega
        · intro p hp
          simp only [List.mem_map] at hp
          obtain ⟨q, hq, hqe⟩ := hp
          rcases promote_fold_members room.settings.startingLives
            room.pendingSpectators (room.players, []) q hq with h1 | h1
          · exact Or.inl ⟨q, h1, hqe.symm⟩
          · obtain ⟨spec, hsm, ht, hl, hw, ha, _, hih⟩ := h1
            refine Or.inr ⟨spec, hsm, ?_, ?_, ?_, ?_, ?_, ?_⟩
            · rw [← hqe]; exact ht
            · rw [← hqe]; rfl
            · rw [← hqe]; rfl
            · rw [← hqe]; rfl
            · rw [← hqe]; rfl
            · rw [← hqe]; exact hih
        · intro spec hsm
          obtain ⟨p, hp, hpt⟩ := promote_fold_covers room.settings.startingLives
            room.pendingSpectators (room.players, []) spec hsm
          exact ⟨resetPlayer room.settings.startingLives p,
            List.mem_map_of_mem _ hp, hpt⟩
  · refine ⟨_, rfl, ?_⟩
    decide

/-- Witness for `c10_endGame_spectators` at the concrete C10 instance. -/
theorem c10_endGame_spectators_witness :
    mget c10St.rooms "r" = some c10Room ∧
    ((∃ st' room2 winner nps,
      endGame c10St "r" = some (st', room2, winner, nps) ∧
      room2.pendingSpectators = [] ∧
      room2.players.length = c10Room.players.length + nps.length ∧
      (∀ p ∈ room2.players,
        (∃ q ∈ c10Room.players, p = resetPlayer c10Room.settings.startingLives q) ∨
        (∃ spec ∈ c10Room.pendingSpectators, p.token = some spec.token ∧
          p.lives = c10Room.settings.startingLives ∧ p.wordsFound = 0 ∧
          p.isAlive = true ∧ p.isReady = false ∧ p.isHost = false)) ∧
      (∀ spec ∈ c10Room.pendingSpectators,
        ∃ p ∈ room2.players, p.token = some spec.token)) ∧
    (∃ res, endGame c10St "r" = some res ∧
      res.2.1.players.length > res.2.1.settings.maxPlayers)) :=
  ⟨by decide, c10_endGame_spectators c10St "r" c10Room (by decide)⟩

/-- C7: every RoomManager mutation preserves the host invariant — in every
room with at least one player, tokens are present and distinct, exactly one
player has `isHost = true`, and that player's token equals `room.hostToken`;
moreover, when the host leaves a room that stays non-empty, the first
remaining player is promoted and `hostToken` is rewritten to its token. -/
theorem c7_host_invariant :
    (∀ st st', RMStep st st' → StateOk st → StateOk st') ∧
    (∀ (st : RMState) (tok : String) (now : Nat) (session : Session)
        (rid : String) (room : Room) (next : Player) (rest : List Player),
      mget st.sessions tok = some session → session.roomId = some rid →
      mget st.rooms rid = some room → room.hostToken = some tok →
      room.players.filter (fun p => !(decide (p.token = some tok))) = next :: rest →
      ∃ room1, mget (leaveRoom st tok now).1.rooms room.id = some room1 ∧
        room1.hostToken = next.token ∧
        room1.players = { next with isHost := true } :: rest ∧
        (leaveRoom st tok now).2
          = some (LeaveResult.left room1 (some next.name))) := by
  constructor
  · intro st st' hstep hok
    cases hstep with
    | register tok sid => exact stateOk_registerSocket st tok sid hok
    | unregister sid => exact stateOk_unregisterSocket st sid hok
    | create data hostSid hostTok genId now =>
        exact stateOk_createRoom st data hostSid hostTok genId now hok
    | join roomId pd sid tok => exact stateOk_joinRoom st roomId pd sid tok hok
    | leave tok now => exact stateOk_leaveRoom st tok now hok
    | endG roomId => exact stateOk_endGame st roomId hok
    | startG roomId now => exact stateOk_startGame st roomId now hok
    | markDis tok => exact stateOk_markDisconnected st tok hok
    | markRec tok => exact stateOk_markReconnected st tok hok
  · intro st tok now session rid room next rest h1 h2 h3 hwh hps
    unfold leaveRoom
    rw [h1]
    simp only
    rw [h2]
    simp only
    rw [h3]
    simp only
    rw [hps]
    simp only
    rw [if_pos hwh]
    refine ⟨_, ?_, rfl, rfl, rfl⟩
    rw [mget_mset]
    simp

/-- Room data for the C7 witness. -/
def c7Data : RoomData :=
  { id := some "r1", name := some "ma salle", host := some "Host",
    hostAvatar := none, scenario := none, wpp := none }

/-- Player data for the C7 witness. -/
def c7Pd : PlayerData := { name := some "Peer", avatar := none }

/-- Witness for `c7_host_invariant` at a concrete create-then-join step. -/
theorem c7_host_invariant_witness :
    RMStep (createRoom emptyRM c7Data "s1" "T1" "g1" 0).1
      (joinRoom (createRoom emptyRM c7Data "s1" "T1" "g1" 0).1 "r1" c7Pd "s2" "T2").1 ∧
    StateOk (createRoom emptyRM c7Data "s1" "T1" "g1" 0).1 ∧
    StateOk (joinRoom (createRoom emptyRM c7Data "s1" "T1" "g1" 0).1 "r1" c7Pd "s2" "T2").1 :=
  ⟨RMStep.join _ "r1" c7Pd "s2" "T2", by decide,
    c7_host_invariant.1 _ _ (RMStep.join _ "r1" c7Pd "s2" "T2") (by decide)⟩

theorem mget_mdel_self {K V : Type} [DecidableEq K] (m : List (K × V)) (k : K) :
    mget (mdel m k) k = none := by
  unfold mget
  cases hf : (mdel m k).find? (fun p => p.1 = k) with
  | none => rfl
  | some pr =>
      exfalso
      have hkey : pr.1 = k := by
        have := List.find?_some hf
        simpa using this
      have hmem := List.mem_of_find?_eq_some hf
      have hkeep := (List.mem_filter.mp hmem).2
      have hkne : ¬ (pr.1 = k) := by simpa using hkeep
      exact hkne hkey

theorem mset_map_fst {K V : Type} [DecidableEq K] (m : List (K × V)) (k : K) (v : V) :
    (mset m k v).map Prod.fst
      = if k ∈ m.map Prod.fst then m.map Prod.fst else m.map Prod.fst ++ [k] := by
  induction m with
  | nil => simp [mset]
  | cons q rest ih =>
      obtain ⟨k₀, v₀⟩ := q
      by_cases hk : k₀ = k
      · subst hk
        simp [mset]
      · simp only [mset, if_neg hk, List.map_cons]
        rw [ih]
        by_cases hmem : k ∈ rest.map Prod.fst
        · rw [if_pos hmem, if_pos (by simp [hmem])]
        · rw [if_neg hmem]
          have hcond : ¬ (k ∈ k₀ :: rest.map Prod.fst) := by
            simp only [List.mem_cons]
            rintro (h | h)
            · exact hk h.symm
            · exact hmem h
          rw [if_neg hcond]
          simp

theorem count_eq_one_of_nodup_mem {α : Type} [DecidableEq α] (l : List α) (a : α)
    (hnd : l.Nodup) (hm : a ∈ l) : l.count a = 1 :=
  List.count_eq_one_of_mem hnd hm

theorem keys_after_mset_nodup {K V : Type} [DecidableEq K] (m : List (K × V))
    (k : K) (v : V) (hnd : (m.map Prod.fst).Nodup) :
    ((mset m k v).map Prod.fst).Nodup ∧ k ∈ (mset m k v).map Prod.fst ∧
      ((mset m k v).map Prod.fst).count k = 1 := by
  rw [mset_map_fst]
  by_cases hmem : k ∈ m.map Prod.fst
  · rw [if_pos hmem]
    exact ⟨hnd, hmem, count_eq_one_of_nodup_mem _ _ hnd hmem⟩
  · rw [if_neg hmem]
    have hnd2 : ((m.map Prod.fst) ++ [k]).Nodup := by
      simp [List.nodup_append, hnd, hmem]
    refine ⟨hnd2, by simp, ?_⟩
    rw [List.count_append]
    have h0 : (m.map Prod.fst).count k = 0 := by
      simp [List.count_eq_zero, hmem]
    rw [h0]
    simp

/-- C9 (counterexample): with `s1 = s2 = "S"`, after
`register("T","S"); register("T","S")` the reverse map still sends `"S"` to
`"T"`, so the claim's clause that s1 no longer maps to t fails when
`s1 = s2`. -/
theorem c9_counterexample :
    mget ((registerSocket (registerSocket emptyRM "T" "S").1 "T" "S").1).sockets "S"
      = some "T" := by
  decide

/-- C9 (amended): for `s1 ≠ s2` (and well-formed session keys, as every
reachable state has), `register(t,s1); register(t,s2)` leaves exactly one
session for `t`, its socketId is `s2`, the reverse map sends `s2` to `t`,
and `s1` is no longer bound at all in the reverse map. -/
theorem c9_amended (st : RMState) (t s1 s2 : String) (hne : s1 ≠ s2)
    (hnd : (st.sessions.map Prod.fst).Nodup) :
    (((registerSocket (registerSocket st t s1).1 t s2).1.sessions.map Prod.fst).count t
        = 1) ∧
    (∃ sess, mget (registerSocket (registerSocket st t s1).1 t s2).1.sessions t
        = some sess ∧ sess.socketId = some s2) ∧
    mget (registerSocket (registerSocket st t s1).1 t s2).1.sockets s2 = some t ∧
    mget (registerSocket (registerSocket st t s1).1 t s2).1.sockets s1 = none := by
  have hshape1 : ∃ sess1, (registerSocket st t s1).1.sessions = mset st.sessions t sess1
      ∧ sess1.socketId = some s1 := by
    unfold registerSocket
    cases h0 : mget st.sessions t <;> exact ⟨_, rfl, rfl⟩
  obtain ⟨sess1, hs1, hsock1⟩ := hshape1
  have hget1 : mget (registerSocket st t s1).1.sessions t = some sess1 := by
    rw [hs1, mget_mset]
    simp
  have hnd1 : ((registerSocket st t s1).1.sessions.map Prod.fst).Nodup := by
    rw [hs1]
    exact (keys_after_mset_nodup st.sessions t sess1 hnd).1
  -- unfold the second register call along the `some` branch
  set st1 := (registerSocket st t s1).1 with hst1
  have hstep2 : (registerSocket st1 t s2).1
      = { st1 with
          sessions := mset st1.sessions t { sess1 with socketId := some s2 }
          sockets := mset (mdel st1.sockets s1) s2 t } := by
    unfold registerSocket
    rw [hget1]
    simp only [hsock1]
  rw [hstep2]
  refine ⟨?_, ⟨{ sess1 with socketId := some s2 }, ?_, rfl⟩, ?_, ?_⟩
  · have := keys_after_mset_nodup st1.sessions t
      { sess1 with socketId := some s2 } hnd1
    exact this.2.2
  · rw [mget_mset]
    simp
  · rw [mget_mset]
    simp
  · rw [mget_mset, if_neg hne]
    exact mget_mdel_self _ s1

/-- Witness for `c9_amended` at distinct concrete socket ids. -/
theorem c9_amended_witness :
    ("A" : String) ≠ "B" ∧
    ((List.map Prod.fst (emptyRM.sessions) : List String).Nodup) ∧
    ((((registerSocket (registerSocket emptyRM "T" "A").1 "T" "B").1.sessions.map
        Prod.fst).count "T" = 1) ∧
    (∃ sess, mget (registerSocket (registerSocket emptyRM "T" "A").1 "T" "B").1.sessions "T"
        = some sess ∧ sess.socketId = some "B") ∧
    mget (registerSocket (registerSocket emptyRM "T" "A").1 "T" "B").1.sockets "B"
      = some "T" ∧
    mget (registerSocket (registerSocket emptyRM "T" "A").1 "T" "B").1.sockets "A"
      = none) :=
  ⟨by decide, by decide, c9_amended emptyRM "T" "A" "B" (by decide) (by decide)⟩

-- ---------------------------------------------------------------------------
-- Turn scheduler (server.js startRoomTimer / pause / resume / rounds)
-- ---------------------------------------------------------------------------

/-- Source `startRoomTimer` state changes (the 50ms tick / expiry callbacks
are asynchronous and outside this transition): clear any armed timer, consume
a memorized positive `pausedRemaining` as the effective duration, record the
round's total, arm, and set the end time. -/
def startRoomTimer (room : Room) (now durationMs : Nat) : Room :=
  let effectiveDuration :=
    match room.game.pausedRemaining with
    | some n => if n > 0 then n else durationMs
    | none => durationMs
  { room with game :=
      { room.game with
        pausedRemaining := none
        timerTotal := some durationMs
        timer := true
        timerEndTime := some (now + effectiveDuration) } }

/-- Turn eligibility used by `advanceToNextAlivePlayer`. -/
def playerOkTurn (p : Player) : Bool :=
  p.isAlive && decide (p.lives > 0) && !p.disconnected

/-- The source `while` scan: keep stepping `(next+1) % N` while the player at
`next` is dead, out of lives or disconnected; the JS `attempts > N` break
bound is the fuel. -/
def advLoop (players : List Player) (next : Nat) : Nat → Nat
  | 0 =>
      match players.get? next with
      | some p => if playerOkTurn p then next else (next + 1) % players.length
      | none => next
  | fuel + 1 =>
      match players.get? next with
      | some p =>
          if playerOkTurn p then next
          else advLoop players ((next + 1) % players.length) fuel
      | none => next

/-- Source `advanceToNextAlivePlayer` (room-level; the caller guarantees the
room exists). -/
def advanceToNextAlivePlayer (room : Room) : Room :=
  if room.gameState ≠ GState.playing then room
  else
    let alivePlayers := room.players.filter playerOkTurn
    if alivePlayers.isEmpty then room
    else
      let next0 := (room.game.currentPlayerIndex + 1) % room.players.length
      let next := advLoop room.players next0 room.players.length
      { room with game := { room.game with currentPlayerIndex := next } }

/-- Source `startNextRound` (room-level): pick a server syllable under the
scenario, insert it into `usedSyllables`, advance the round number, set the
3s `serverControlledUntil` guard, and arm the timer for
`(8 + extraTurnSeconds) * 1000` ms.  The `syllableUpdate` broadcast carries
the same `currentSyllable` recorded here. -/
def startNextRound (room : Room) (counts : Nat → List (List Char × Nat))
    (rng : Rng) (now : Nat) : Room :=
  if room.gameState ≠ GState.playing then room
  else
    let scenario := match room.settings.scenario with
      | some s => if s.isEmpty then none else some s
      | none => none
    let pick := pickServerSyllable counts room.game.usedSyllables scenario rng
    let newSyl := pick.1
    let used1 := if newSyl ∈ pick.2 then pick.2 else pick.2 ++ [newSyl]
    let defaultTimerMs := (8 + room.settings.extraTurnSeconds) * 1000
    let room1 := { room with game :=
      { room.game with
        usedSyllables := used1
        currentSyllable := some newSyl
        roundNumber := room.game.roundNumber + 1
        serverControlledUntil := now + 3000 } }
    startRoomTimer room1 now defaultTimerMs

/-- Source `pauseRoomGame` state changes. -/
def pauseRoomGame (st : RMState) (roomId : String) (now : Nat) : RMState :=
  match mget st.rooms roomId with
  | none => st
  | some room =>
      if room.gameState ≠ GState.playing ∨ room.game.paused then st
      else
        let remaining := match room.game.timerEndTime with
          | some e => if e = 0 then 0 else e - now
          | none => 0
        let room1 := { room with game :=
          { room.game with
            paused := true
            pausedRemaining := some remaining
            pausedAt := some now } }
        { st with rooms := mset st.rooms roomId room1 }

/-- Payload of the `gameResumed` broadcast. -/
structure ResumedEvt where
  remaining : Nat
  total : Nat
  syllable : Option (List Char)
  playerIndex : Nat
  roundNumber : Nat
deriving DecidableEq, Repr

/-- Source `resumeRoomGame`: clear `paused`, take
`pausedRemaining || 3000` as the restart duration (the 3000 is a DEFAULT used
when the memorized remainder is absent or zero, not a floor), broadcast
`gameResumed`, and re-arm the timer ending at `now + remaining`. -/
def resumeRoomGame (st : RMState) (roomId : String) (now : Nat) :
    RMState × Option ResumedEvt :=
  match mget st.rooms roomId with
  | none => (st, none)
  | some room =>
    if room.gameState ≠ GState.playing ∨ ¬ room.game.paused then (st, none)
    else
      let remaining := match room.game.pausedRemaining with
        | some n => if n = 0 then 3000 else n
        | none => 3000
      let timerTotal := match room.game.timerTotal with
        | some t => if t = 0 then 8000 else t
        | none => 8000
      let evt : ResumedEvt :=
        { remaining := remaining, total := timerTotal,
          syllable := room.game.currentSyllable,
          playerIndex := room.game.currentPlayerIndex,
          roundNumber := room.game.roundNumber }
      let room1 := { room with game :=
        { room.game with
          paused := false
          pausedRemaining := none
          timer := true
          timerEndTime := some (now + remaining) } }
      ({ st with rooms := mset st.rooms roomId room1 }, some evt)

/-- Game data of the C4 instance: paused with 1000 ms frozen. -/
def c4Game : GameData :=
  { currentSyllable := some "ON".toList, currentPlayerIndex := 0, roundNumber := 1,
    startTime := some 0, timer := true, timerEndTime := some 5000,
    timerTotal := some 8000, paused := true, pausedRemaining := some 1000,
    pausedAt := some 50, usedSyllables := ["ON".toList],
    serverControlledUntil := 0 }

/-- Room of the C4 instance. -/
def c4Room : Room :=
  { id := "r", name := "n", host := some "H", hostAvatar := "",
    hostToken := some "T",
    pendingSpectators := [],
    players := [c10Host],
    gameState := GState.playing,
    settings := { scenario := none, wpp := none, maxPlayers := 6,
                  startingLives := 2, extraTurnSeconds := 0 },
    game := c4Game,
    createdAt := 0, recentlyLeft := [], displayPlayerCount := none }

/-- Manager state of the C4 instance. -/
def c4St : RMState := { rooms := [("r", c4Room)], sessions := [], sockets := [] }

/-- C4 (counterexample): resuming a paused room whose frozen remainder is
1000 ms re-arms the timer for 1000 ms — `timerEndTime = now + 1000` — not
`now + max(1000, 3000)`: the 3 s value is not a floor. -/
theorem c4_counterexample :
    ((resumeRoomGame c4St "r" 100).2.map ResumedEvt.remaining = some 1000) ∧
    ((mget (resumeRoomGame c4St "r" 100).1.rooms "r").map (fun r => r.game.timerEndTime)
        = some (some (100 + 1000))) ∧
    100 + 1000 ≠ 100 + max 1000 3000 := by
  refine ⟨by decide, by decide, by decide⟩

/-- C4 (amended): resuming a paused playing room clears the paused flag,
broadcasts `gameResumed`, and arms a new timer with
`timerEndTime = now + remaining`, where `remaining` is the frozen
`pausedRemaining` when it is present and positive, and the 3000 ms DEFAULT
only when the frozen remainder is absent or zero (`pausedRemaining || 3000`
— a default, not a `max` floor). -/
theorem c4_amended (st : RMState) (roomId : String) (now : Nat) (room : Room)
    (hroom : mget st.rooms roomId = some room)
    (hplay : room.gameState = GState.playing)
    (hpaused : room.game.paused = true) :
    ∃ room1 evt,
      resumeRoomGame st roomId now
        = ({ st with rooms := mset st.rooms roomId room1 }, some evt) ∧
      room1.game.paused = false ∧
      room1.game.timer = true ∧
      room1.game.pausedRemaining = none ∧
      room1.game.timerEndTime = some (now + evt.remaining) ∧
      (∀ n, room.game.pausedRemaining = some n → n ≠ 0 → evt.remaining = n) ∧
      ((room.game.pausedRemaining = none ∨ room.game.pausedRemaining = some 0) →
        evt.remaining = 3000) := by
  unfold resumeRoomGame
  rw [hroom]
  simp only
  have hguard : ¬ (room.gameState ≠ GState.playing ∨ ¬ room.game.paused = true) := by
    push_neg
    exact ⟨hplay, hpaused⟩
  rw [if_neg hguard]
  refine ⟨_, _, rfl, rfl, rfl, rfl, rfl, ?_, ?_⟩
  · intro n hn hn0
    simp only [hn, if_neg hn0]
  · rintro (hn | hn) <;> (simp only [hn]; try rfl)

/-- Witness for `c4_amended` at the concrete paused room. -/
theorem c4_amended_witness :
    mget c4St.rooms "r" = some c4Room ∧
    c4Room.gameState = GState.playing ∧
    c4Room.game.paused = true ∧
    (∃ room1 evt,
      resumeRoomGame c4St "r" 100
        = ({ c4St with rooms := mset c4St.rooms "r" room1 }, some evt) ∧
      room1.game.paused = false ∧
      room1.game.timer = true ∧
      room1.game.pausedRemaining = none ∧
      room1.game.timerEndTime = some (100 + evt.remaining) ∧
      (∀ n, c4Room.game.pausedRemaining = some n → n ≠ 0 → evt.remaining = n) ∧
      ((c4Room.game.pausedRemaining = none ∨ c4Room.game.pausedRemaining = some 0) →
        evt.remaining = 3000)) :=
  ⟨by decide, by decide, by decide,
    c4_amended c4St "r" 100 c4Room (by decide) (by decide) (by decide)⟩

-- ---------------------------------------------------------------------------
-- Word submission (server.js socket.on submitWord)
-- ---------------------------------------------------------------------------

/-- Global server state seen by `submitWord`: the room manager, the per-token
submission-timestamp map (`wordSubmissions`, embedded as a total function
with default `[]`), and the dictionary index. -/
structure SrvState where
  rm : RMState
  wordSubmissions : Option String → List Nat
  index : ServerIndex

/-- The `submitWord` payload; the `syllable` field is part of the wire format
but is never read by the handler. -/
structure SubmitPayload where
  roomId : String
  word : List Char
  syllable : Option (List Char)

/-- Rejection reasons of `wordRejected`, carrying the interpolated values. -/
inductive RejectReason where
  | tropRapide : RejectReason
  | pasVotreTour : RejectReason
  | motVide : RejectReason
  | neContientPas (syl : List Char) : RejectReason
  | nonDictionnaire (word : List Char) : RejectReason
deriving DecidableEq, Repr

/-- Observable outcome of one `submitWord` event. -/
inductive SubmitOut where
  | silent : SubmitOut
  | rejected (reason : RejectReason) : SubmitOut
  | accepted (word : List Char) : SubmitOut
deriving DecidableEq, Repr

/-- The handler's turn check: the submission is blocked when it is not the
caller's turn, except for the host submitting on behalf of a local bot (a
current player whose token is shared by no token-bearing server player). -/
def turnBlockedCheck (rm : RMState) (roomId : String) (room : Room)
    (tok : Option String) : Bool :=
  match (if room.players.isEmpty then none
         else room.players.get? (room.game.currentPlayerIndex % room.players.length)) with
  | some cp =>
      if cp.token = tok then false
      else !(rmIsHost rm roomId tok && !(room.players.any
        (fun p => decide (p.token = cp.token) && !(decide (p.token = none)))))
  | none => false

/-- Source `socket.on('submitWord')`: guards (room playing, caller a live
player), per-token 800 ms rate limit (recorded BEFORE the turn and word
checks), turn check with the host-for-local-bot exception, socketId refresh,
empty-word / syllable-containment / dictionary checks, and on success timer
stop + `wordsFound` increment + turn advance + next round.  The server's own
`currentSyllable` is used throughout; `payload.syllable` is never read. -/
def submitWord (g : SrvState) (now : Nat) (sockId : String) (tok : Option String)
    (payload : SubmitPayload) (rng : Rng) : SrvState × SubmitOut :=
  match mget g.rm.rooms payload.roomId with
  | none => (g, SubmitOut.silent)
  | some room =>
    if room.gameState ≠ GState.playing then (g, SubmitOut.silent) else
    match room.players.find? (fun p => decide (p.token = tok)) with
    | none => (g, SubmitOut.silent)
    | some player =>
      if player.isAlive = false then (g, SubmitOut.silent) else
      let subs := (g.wordSubmissions tok).filter (fun t0 => decide (now - t0 < 800))
      if ¬ subs.isEmpty then (g, SubmitOut.rejected RejectReason.tropRapide) else
      let g1 := { g with wordSubmissions :=
        fun t1 => if t1 = tok then subs ++ [now] else g.wordSubmissions t1 }
      if turnBlockedCheck g.rm payload.roomId room tok then
        (g1, SubmitOut.rejected RejectReason.pasVotreTour) else
      let players1 := updateFirstPlayer room.players tok
        (fun p => { p with socketId := sockId })
      let room1 := { room with players := players1 }
      let rooms2 := mset g1.rm.rooms payload.roomId room1
      let g2 := { g1 with rm := { g1.rm with rooms := rooms2 } }
      let wordUpper := jsTrim (jsUpper payload.word)
      let sylUpper := jsTrim (jsUpper (room.game.currentSyllable.getD []))
      if wordUpper.isEmpty then (g2, SubmitOut.rejected RejectReason.motVide) else
      if ¬ sylUpper.isEmpty ∧ jsIncludes wordUpper sylUpper = false then
        (g2, SubmitOut.rejected (RejectReason.neContientPas sylUpper)) else
      if dictHas g.index wordUpper then
        let room2 := { room1 with game := { room1.game with timer := false } }
        let players3 := updateFirstPlayer room2.players tok
          (fun p => { p with wordsFound := p.wordsFound + 1 })
        let room3 := { room2 with players := players3 }
        let room4 := advanceToNextAlivePlayer room3
        let room5 := startNextRound room4 g.index.syllableCounts rng now
        let rooms5 := mset g2.rm.rooms payload.roomId room5
        let g3 := { g2 with rm := { g2.rm with rooms := rooms5 } }
        (g3, SubmitOut.accepted wordUpper)
      else
        (g2, SubmitOut.rejected (RejectReason.nonDictionnaire wordUpper))

/-- C5: the outcome and resulting state of `submitWord` are independent of
the client-supplied `syllable` payload field — two calls on identical server
state differing only in that field produce identical results (the handler
never reads it; validation uses the server's `currentSyllable`). -/
theorem c5_client_syllable_ignored (g : SrvState) (now : Nat) (sockId : String)
    (tok : Option String) (p1 p2 : SubmitPayload) (rng : Rng)
    (hroom : p1.roomId = p2.roomId) (hword : p1.word = p2.word) :
    submitWord g now sockId tok p1 rng = submitWord g now sockId tok p2 rng := by
  obtain ⟨r1, w1, s1⟩ := p1
  obtain ⟨r2, w2, s2⟩ := p2
  simp only at hroom hword
  subst hroom
  subst hword
  rfl

/-- Witness for `c5_client_syllable_ignored` at differing syllable fields. -/
theorem c5_client_syllable_ignored_witness :
    (({ roomId := "r", word := "BAL".toList, syllable := some "BA".toList }
        : SubmitPayload).roomId
      = ({ roomId := "r", word := "BAL".toList, syllable := some "XY".toList }
        : SubmitPayload).roomId) ∧
    (({ roomId := "r", word := "BAL".toList, syllable := some "BA".toList }
        : SubmitPayload).word
      = ({ roomId := "r", word := "BAL".toList, syllable := some "XY".toList }
        : SubmitPayload).word) ∧
    submitWord { rm := c4St, wordSubmissions := fun _ => [], index := emptyIndex }
        1000 "s1" (some "T")
        { roomId := "r", word := "BAL".toList, syllable := some "BA".toList }
        ⟨fun _ => 0⟩
      = submitWord { rm := c4St, wordSubmissions := fun _ => [], index := emptyIndex }
        1000 "s1" (some "T")
        { roomId := "r", word := "BAL".toList, syllable := some "XY".toList }
        ⟨fun _ => 0⟩ :=
  ⟨rfl, rfl, c5_client_syllable_ignored _ 1000 "s1" (some "T") _ _ _ rfl rfl⟩

theorem find?_updateFirstPlayer (ps : List Player) (tok : Option String)
    (f : Player → Player) (hf : ∀ p, (f p).token = p.token) :
    (updateFirstPlayer ps tok f).find? (fun p => decide (p.token = tok))
      = (ps.find? (fun p => decide (p.token = tok))).map f := by
  induction ps with
  | nil => rfl
  | cons p rest ih =>
      by_cases hp : p.token = tok
      · simp [updateFirstPlayer, hp, List.find?, hf]
      · simp [updateFirstPlayer, hp, List.find?, ih]

theorem advance_gameState (r : Room) :
    (advanceToNextAlivePlayer r).gameState = r.gameState := by
  unfold advanceToNextAlivePlayer
  by_cases h1 : r.gameState ≠ GState.playing
  · rw [if_pos h1]
  · rw [if_neg h1]
    by_cases h2 : (r.players.filter playerOkTurn).isEmpty
    · simp [h2]
    · simp [h2]

theorem advance_players (r : Room) :
    (advanceToNextAlivePlayer r).players = r.players := by
  unfold advanceToNextAlivePlayer
  by_cases h1 : r.gameState ≠ GState.playing
  · rw [if_pos h1]
  · rw [if_neg h1]
    by_cases h2 : (r.players.filter playerOkTurn).isEmpty
    · simp [h2]
    · simp [h2]

theorem snr_gameState (r : Room) (c : Nat → List (List Char × Nat)) (rng : Rng)
    (now : Nat) : (startNextRound r c rng now).gameState = r.gameState := by
  unfold startNextRound startRoomTimer
  by_cases h1 : r.gameState ≠ GState.playing
  · rw [if_pos h1]
  · rw [if_neg h1]

theorem snr_players (r : Room) (c : Nat → List (List Char × Nat)) (rng : Rng)
    (now : Nat) : (startNextRound r c rng now).players = r.players := by
  unfold startNextRound startRoomTimer
  by_cases h1 : r.gameState ≠ GState.playing
  · rw [if_pos h1]
  · rw [if_neg h1]

theorem submitWord_tropRapide (g : SrvState) (now : Nat) (sid : String)
    (tok : Option String) (p : SubmitPayload) (rng : Rng) (room : Room)
    (player : Player) (t0 : Nat)
    (hroom : mget g.rm.rooms p.roomId = some room)
    (hplay : room.gameState = GState.playing)
    (hfind : room.players.find? (fun q => decide (q.token = tok)) = some player)
    (halive : player.isAlive = true)
    (ht0 : t0 ∈ g.wordSubmissions tok)
    (hrec : now - t0 < 800) :
    (submitWord g now sid tok p rng).2 = SubmitOut.rejected RejectReason.tropRapide := by
  unfold submitWord
  rw [hroom]
  simp only
  have h1 : ¬ (room.gameState ≠ GState.playing) := by simp [hplay]
  rw [if_neg h1, hfind]
  simp only
  have h2 : ¬ (player.isAlive = false) := by simp [halive]
  rw [if_neg h2]
  have h3 : ¬ ((g.wordSubmissions tok).filter
      (fun u => decide (now - u < 800))).isEmpty = true := by
    have hmem : t0 ∈ (g.wordSubmissions tok).filter (fun u => decide (now - u < 800)) :=
      List.mem_filter.mpr ⟨ht0, by simpa using hrec⟩
    intro hemp
    rw [List.isEmpty_iff] at hemp
    rw [hemp] at hmem
    exact (List.not_mem_nil t0) hmem
  rw [if_pos h3]

/-- The room after the handler's socketId refresh of the submitting player. -/
def refreshedRoom (room : Room) (tok : Option String) (sid : String) : Room :=
  { room with
    players := updateFirstPlayer room.players tok (fun q => { q with socketId := sid }) }

theorem find?_submit_players (ps : List Player) (tok : Option String) (sid : String)
    (player : Player)
    (hfind : ps.find? (fun q => decide (q.token = tok)) = some player) :
    ((updateFirstPlayer (updateFirstPlayer ps tok (fun q => { q with socketId := sid }))
        tok (fun q => { q with wordsFound := q.wordsFound + 1 })).find?
      (fun q => decide (q.token = tok)))
      = some { player with
               socketId := sid
               wordsFound := player.wordsFound + 1 } := by
  rw [find?_updateFirstPlayer (updateFirstPlayer ps tok (fun q => { q with socketId := sid }))
      tok (fun q => { q with wordsFound := q.wordsFound + 1 }) (fun q => rfl)]
  rw [find?_updateFirstPlayer ps tok (fun q => { q with socketId := sid }) (fun q => rfl)]
  rw [hfind]
  rfl

/-- C6: the 800 ms per-token rate limit.  If a `submitWord` call at `now1`
records a submission — observably, it is accepted or rejected for a reason
other than "Trop rapide!" (silent drops and rate-limit rejections record
nothing) — then a second `submitWord` call with the same session token on the
same room less than 800 ms later is rejected with "Trop rapide!"; in
particular at most the first of the two calls can be accepted. -/
theorem c6_rate_limit (g : SrvState) (now1 now2 : Nat) (sid1 sid2 : String)
    (tok : Option String) (p1 p2 : SubmitPayload) (rng1 rng2 : Rng)
    (hrec : (∃ w, (submitWord g now1 sid1 tok p1 rng1).2 = SubmitOut.accepted w) ∨
            (∃ r, (submitWord g now1 sid1 tok p1 rng1).2 = SubmitOut.rejected r ∧
              r ≠ RejectReason.tropRapide))
    (hrid : p2.roomId = p1.roomId)
    (hlt : now2 - now1 < 800) :
    (submitWord (submitWord g now1 sid1 tok p1 rng1).1 now2 sid2 tok p2 rng2).2
      = SubmitOut.rejected RejectReason.tropRapide := by
  cases hcall : submitWord g now1 sid1 tok p1 rng1 with
  | mk g3 out =>
    rw [hcall] at hrec
    simp only at hrec ⊢
    unfold submitWord at hcall
    cases hroom : mget g.rm.rooms p1.roomId with
    | none =>
        rw [hroom] at hcall
        simp only at hcall
        injection hcall with h1 h2
        subst h2
        rcases hrec with ⟨w, hw⟩ | ⟨r, hr, hne⟩
        · exact SubmitOut.noConfusion hw
        · exact SubmitOut.noConfusion hr
    | some room =>
      rw [hroom] at hcall
      simp only at hcall
      by_cases hplay : room.gameState ≠ GState.playing
      · rw [if_pos hplay] at hcall
        injection hcall with h1 h2
        subst h2
        rcases hrec with ⟨w, hw⟩ | ⟨r, hr, hne⟩
        · exact SubmitOut.noConfusion hw
        · exact SubmitOut.noConfusion hr
      · rw [if_neg hplay] at hcall
        cases hfind : room.players.find? (fun q => decide (q.token = tok)) with
        | none =>
            rw [hfind] at hcall
            simp only at hcall
            injection hcall with h1 h2
            subst h2
            rcases hrec with ⟨w, hw⟩ | ⟨r, hr, hne⟩
            · exact SubmitOut.noConfusion hw
            · exact SubmitOut.noConfusion hr
        | some player =>
          rw [hfind] at hcall
          simp only at hcall
          by_cases halive : player.isAlive = false
          · rw [if_pos halive] at hcall
            injection hcall with h1 h2
            subst h2
            rcases hrec with ⟨w, hw⟩ | ⟨r, hr, hne⟩
            · exact SubmitOut.noConfusion hw
            · exact SubmitOut.noConfusion hr
          · rw [if_neg halive] at hcall
            by_cases hrate : ¬ ((g.wordSubmissions tok).filter
                (fun u => decide (now1 - u < 800))).isEmpty = true
            · rw [if_pos hrate] at hcall
              injection hcall with h1 h2
              subst h2
              rcases hrec with ⟨w, hw⟩ | ⟨r, hr, hne⟩
              · exact SubmitOut.noConfusion hw
              · injection hr with hr2
                exact absurd hr2.symm hne
            · rw [if_neg hrate] at hcall
              by_cases htb : turnBlockedCheck g.rm p1.roomId room tok = true
              · rw [if_pos htb] at hcall
                injection hcall with h1 h2
                subst h1
                exact submitWord_tropRapide _ now2 sid2 tok p2 rng2 room player now1
                  (by rw [hrid]; exact hroom)
                  (not_not.mp hplay)
                  hfind
                  (by
                    show player.isAlive = true
                    cases hb : player.isAlive
                    · exact absurd hb halive
                    · rfl)
                  (by simp)
                  hlt
              · rw [if_neg htb] at hcall
                by_cases hempty : (jsTrim (jsUpper p1.word)).isEmpty = true
                · rw [if_pos hempty] at hcall
                  injection hcall with h1 h2
                  subst h1
                  exact submitWord_tropRapide _ now2 sid2 tok p2 rng2
                    (refreshedRoom room tok sid1)
                    { player with socketId := sid1 } now1
                    (by rw [hrid]
                        exact (mget_mset g.rm.rooms p1.roomId p1.roomId _).trans
                          (if_pos rfl))
                    (not_not.mp hplay)
                    (by
                      show (updateFirstPlayer room.players tok
                          (fun q => { q with socketId := sid1 })).find?
                          (fun q => decide (q.token = tok))
                          = some { player with socketId := sid1 }
                      rw [find?_updateFirstPlayer room.players tok
                          (fun q => { q with socketId := sid1 }) (fun q => rfl), hfind]
                      rfl)
                    (by
                      show player.isAlive = true
                      cases hb : player.isAlive
                      · exact absurd hb halive
                      · rfl)
                    (by simp)
                    hlt
                · rw [if_neg hempty] at hcall
                  by_cases hcont :
                      ¬ (jsTrim (jsUpper (room.game.currentSyllable.getD []))).isEmpty
                          = true ∧
                        jsIncludes (jsTrim (jsUpper p1.word))
                          (jsTrim (jsUpper (room.game.currentSyllable.getD []))) = false
                  · rw [if_pos hcont] at hcall
                    injection hcall with h1 h2
                    subst h1
                    exact submitWord_tropRapide _ now2 sid2 tok p2 rng2
                      (refreshedRoom room tok sid1)
                      { player with socketId := sid1 } now1
                      (by rw [hrid]
                          exact (mget_mset g.rm.rooms p1.roomId p1.roomId _).trans
                            (if_pos rfl))
                      (not_not.mp hplay)
                      (by
                        show (updateFirstPlayer room.players tok
                            (fun q => { q with socketId := sid1 })).find?
                            (fun q => decide (q.token = tok))
                            = some { player with socketId := sid1 }
                        rw [find?_updateFirstPlayer room.players tok
                            (fun q => { q with socketId := sid1 }) (fun q => rfl), hfind]
                        rfl)
                      (by
                        show player.isAlive = true
                        cases hb : player.isAlive
                        · exact absurd hb halive
                        · rfl)
                      (by simp)
                      hlt
                  · rw [if_neg hcont] at hcall
                    by_cases hdict : dictHas g.index (jsTrim (jsUpper p1.word)) = true
                    · rw [if_pos hdict] at hcall
                      injection hcall with h1 h2
                      subst h1
                      exact submitWord_tropRapide _ now2 sid2 tok p2 rng2 _ _ now1
                        (by rw [hrid]
                            exact (mget_mset _ p1.roomId p1.roomId _).trans (if_pos rfl))
                        (by rw [snr_gameState, advance_gameState]
                            exact not_not.mp hplay)
                        (by rw [snr_players, advance_players]
                            exact find?_submit_players room.players tok sid1 player hfind)
                        (by
                          show player.isAlive = true
                          cases hb : player.isAlive
                          · exact absurd hb halive
                          · rfl)
                        (by simp)
                        hlt
                    · rw [if_neg hdict] at hcall
                      injection hcall with h1 h2
                      subst h1
                      exact submitWord_tropRapide _ now2 sid2 tok p2 rng2
                        (refreshedRoom room tok sid1)
                        { player with socketId := sid1 } now1
                        (by rw [hrid]
                            exact (mget_mset g.rm.rooms p1.roomId p1.roomId _).trans
                              (if_pos rfl))
                        (not_not.mp hplay)
                        (by
                          show (updateFirstPlayer room.players tok
                              (fun q => { q with socketId := sid1 })).find?
                              (fun q => decide (q.token = tok))
                              = some { player with socketId := sid1 }
                          rw [find?_updateFirstPlayer room.players tok
                              (fun q => { q with socketId := sid1 }) (fun q => rfl), hfind]
                          rfl)
                        (by
                          show player.isAlive = true
                          cases hb : player.isAlive
                          · exact absurd hb halive
                          · rfl)
                        (by simp)
                        hlt

/-- Player of the C6 witness room: the live host, whose turn it is. -/
def c6Player : Player :=
  { token := some "T", socketId := "s0", name := some "Ann", avatar := "",
    isHost := true, isReady := true, lives := 2, wordsFound := 0,
    isAlive := true, disconnected := false }

/-- Game data of the C6 witness room: syllable "BA", player 0 on turn. -/
def c6Game : GameData :=
  { currentSyllable := some "BA".toList, currentPlayerIndex := 0,
    roundNumber := 1, startTime := some 0, timer := true,
    timerEndTime := some 9000, timerTotal := some 8000, paused := false,
    pausedRemaining := none, pausedAt := none, usedSyllables := [],
    serverControlledUntil := 0 }

/-- The C6 witness room: playing, one live player. -/
def c6Room : Room :=
  { id := "r", name := "n", host := some "Ann", hostAvatar := "",
    hostToken := some "T",
    pendingSpectators := [],
    players := [c6Player],
    gameState := GState.playing,
    settings := { scenario := none, wpp := none, maxPlayers := 6,
                  startingLives := 2, extraTurnSeconds := 0 },
    game := c6Game,
    createdAt := 0, recentlyLeft := [], displayPlayerCount := none }

/-- Server state of the C6 witness: the room, no prior submissions, and a
dictionary membership set holding exactly the hash of "BAL". -/
def c6G : SrvState :=
  { rm := { rooms := [("r", c6Room)], sessions := [], sockets := [] },
    wordSubmissions := fun _ => [],
    index := { syllableCounts := fun _ => [], wordsBySyll := [],
               dictionarySet := some [hashWord "BAL".toList] } }

/-- First C6 payload: the valid word "bal". -/
def c6Pay1 : SubmitPayload := { roomId := "r", word := "bal".toList, syllable := none }

/-- Second C6 payload, 500 ms later. -/
def c6Pay2 : SubmitPayload := { roomId := "r", word := "bar".toList, syllable := none }

/-- Fixed randomness for the C6 witness. -/
def c6Rng : Rng := ⟨fun _ => 0⟩

/-- Witness for `c6_rate_limit`: a concrete accepted submission at t=1000 ms
followed by one at t=1500 ms that is rejected "Trop rapide!". -/
theorem c6_rate_limit_witness :
    ((∃ w, (submitWord c6G 1000 "s1" (some "T") c6Pay1 c6Rng).2 = SubmitOut.accepted w) ∨
      (∃ r, (submitWord c6G 1000 "s1" (some "T") c6Pay1 c6Rng).2 = SubmitOut.rejected r ∧
        r ≠ RejectReason.tropRapide)) ∧
    c6Pay2.roomId = c6Pay1.roomId ∧
    1500 - 1000 < 800 ∧
    (submitWord (submitWord c6G 1000 "s1" (some "T") c6Pay1 c6Rng).1 1500 "s2" (some "T")
        c6Pay2 c6Rng).2 = SubmitOut.rejected RejectReason.tropRapide :=
  ⟨Or.inl ⟨"BAL".toList, by decide⟩, by decide, by decide,
    c6_rate_limit c6G 1000 1500 "s1" "s2" (some "T") c6Pay1 c6Pay2 c6Rng c6Rng
      (Or.inl ⟨"BAL".toList, by decide⟩) (by decide) (by decide)⟩

-- ---------------------------------------------------------------------------
-- Chat (server.js socket.on chatMessage)
-- ---------------------------------------------------------------------------

/-- The `chatMessage` payload (destructured in the handler); `none` models a
missing/falsy field. -/
structure ChatPayload where
  roomId : String
  message : Option (List Char)
  playerName : Option (List Char)
  avatar : Option (List Char)
  replyTo : Option String
  staffToken : Option String
  isBot : Bool

/-- One staff account (fields of a `loadStaff()` entry used by the chat
handler). -/
structure StaffAccount where
  sessionToken : String
  sessionExpires : Nat
  role : String
deriving DecidableEq, Repr

/-- The rebroadcast `chatMessage` event (the deterministic fields: `id` and
`timestamp` are wall-clock noise, `senderSocketId` is the caller's id). -/
structure ChatOut where
  sender : List Char
  message : List Char
  type : List Char
  avatar : List Char
  replyTo : Option String
  staffRole : Option String
deriving DecidableEq, Repr

/-- Source `socket.on('chatMessage')`: drop if the room is unknown or the
trimmed message is empty; truncate the trimmed message to 300 chars and the
trimmed sender name to 30 chars; keep the avatar only under the
`data:image/` / `https://` scheme whitelist; TokiBot messages require the
host; otherwise resolve the staff role and rebroadcast.  No HTML escaping is
applied to any field. -/
def chatMessage (st : RMState) (staff : List StaffAccount) (now : Nat)
    (tok : Option String) (payload : ChatPayload) : Option ChatOut :=
  match mget st.rooms payload.roomId with
  | none => none
  | some _room =>
    let msg := (jsTrim (payload.message.getD [])).take 300
    if msg.isEmpty then none else
    let safePlayerName :=
      match payload.playerName with
      | some pn => if pn.isEmpty then [] else (jsTrim pn).take 30
      | none => []
    let safeAvatar :=
      match payload.avatar with
      | some a =>
          if jsStartsWith a "data:image/".toList || jsStartsWith a "https://".toList
          then a else []
      | none => []
    if payload.isBot then
      if rmIsHost st payload.roomId tok then
        some { sender := "TokiBot".toList, message := msg, type := "bot".toList,
               avatar := [], replyTo := none, staffRole := none }
      else none
    else
      let staffRole :=
        match payload.staffToken with
        | some stok =>
            if stok = "" then none
            else
              match staff.find? (fun a =>
                  decide (a.sessionToken = stok) && decide (a.sessionExpires > now)) with
              | some account => some account.role
              | none => none
        | none => none
      let replyOut :=
        match payload.replyTo with
        | some r => if r = "" then none else some r
        | none => none
      some { sender := safePlayerName, message := msg, type := "player".toList,
             avatar := safeAvatar, replyTo := replyOut, staffRole := staffRole }

/-- C8 payload with HTML-special characters in the message and sender name. -/
def c8Pay : ChatPayload :=
  { roomId := "r", message := some "<b>hi".toList,
    playerName := some "Bob<i>".toList, avatar := none, replyTo := none,
    staffToken := none, isBot := false }

/-- C8 (counterexample): on an existing room the handler rebroadcasts the
message body and the sender name verbatim — `<b>hi` and `Bob<i>` — although
their HTML-escaped forms differ: no escaping is applied to either field
(`escapeHtml` exists in the source but the chat handler never calls it). -/
theorem c8_counterexample :
    ((chatMessage c4St [] 0 none c8Pay).map ChatOut.message = some "<b>hi".toList) ∧
    ((chatMessage c4St [] 0 none c8Pay).map ChatOut.sender = some "Bob<i>".toList) ∧
    escapeHtml "<b>hi".toList ≠ "<b>hi".toList ∧
    escapeHtml "Bob<i>".toList ≠ "Bob<i>".toList := by
  refine ⟨by decide, by decide, by decide, by decide⟩

/-- C8 (amended): for every chatMessage event on an existing room whose
trimmed message is non-empty and which is not a TokiBot message, the
rebroadcast body is the submitted message trimmed and truncated to 300
characters VERBATIM (no HTML escaping), and the rebroadcast sender is the
submitted name trimmed and truncated to 30 characters verbatim (empty for a
missing or empty name) — likewise unescaped. -/
theorem c8_amended (st : RMState) (staff : List StaffAccount) (now : Nat)
    (tok : Option String) (p : ChatPayload) (room : Room)
    (hroom : mget st.rooms p.roomId = some room)
    (hmsg : ((jsTrim (p.message.getD [])).take 300).isEmpty = false)
    (hbot : p.isBot = false) :
    ∃ out, chatMessage st staff now tok p = some out ∧
      out.message = (jsTrim (p.message.getD [])).take 300 ∧
      (∀ pn, p.playerName = some pn → pn.isEmpty = false →
        out.sender = (jsTrim pn).take 30) ∧
      ((p.playerName = none ∨ p.playerName = some []) → out.sender = []) := by
  unfold chatMessage
  rw [hroom]
  simp only
  rw [if_neg (by simp [hmsg])]
  rw [if_neg (by simp [hbot])]
  refine ⟨_, rfl, rfl, ?_, ?_⟩
  · intro pn hpn hpe
    simp only [hpn]
    rw [if_neg (by simp [hpe])]
  · rintro (hn | hn)
    · rw [hn]
    · rw [hn]
      simp

/-- Payload of the `c8_amended` witness. -/
def c8PayW : ChatPayload :=
  { roomId := "r", message := some "  hello <b>world</b>  ".toList,
    playerName := some " Alice ".toList, avatar := none, replyTo := none,
    staffToken := none, isBot := false }

/-- Witness for `c8_amended` at a concrete payload on the existing room. -/
theorem c8_amended_witness :
    mget c4St.rooms c8PayW.roomId = some c4Room ∧
    ((jsTrim (c8PayW.message.getD [])).take 300).isEmpty = false ∧
    c8PayW.isBot = false ∧
    (∃ out, chatMessage c4St [] 0 none c8PayW = some out ∧
      out.message = (jsTrim (c8PayW.message.getD [])).take 300 ∧
      (∀ pn, c8PayW.playerName = some pn → pn.isEmpty = false →
        out.sender = (jsTrim pn).take 30) ∧
      ((c8PayW.playerName = none ∨ c8PayW.playerName = some []) → out.sender = [])) :=
  ⟨by decide, by decide, by decide,
    c8_amended c4St [] 0 none c8PayW c4Room (by decide) (by decide) (by decide)⟩
